import Mathlib

/-!
Shallow embedding of the wallet ledger of the virtual-wallet backend
(src/app/services/wallet.py, src/app/models/models.py, src/app/schemas/wallet.py,
src/app/services/auth.py).

Modelling conventions:
* Opaque UUID identifiers become naturals.
* Monetary values live in ℚ.  The source stores balances and amounts as
  IEEE-754 binary64 doubles (SQLAlchemy Float columns, pydantic float
  fields, Python float arithmetic), and every binary64 value is a
  rational, so ℚ is the carrier; the rounding performed by every Python
  float operation is modelled explicitly by round64 below (round to
  nearest, ties to even, 53-bit significand).  Each service method comes
  in two semantics: the plain functions (deposit_funds, withdraw_funds,
  buy_goods, transfer_funds) combine amounts with exact rational
  arithmetic and serve the arithmetic-independent properties (control
  flow, validation order, error atomicity, sign preservation), while the
  rounded functions (deposit_funds_fl, withdraw_funds_fl, buy_goods_fl,
  transfer_funds_fl) apply round64 to every balance mutation exactly
  where the source's float arithmetic rounds, and decide the quantitative
  claims.  The declared storage representation of each monetary column is
  also recorded separately (see NumericRepr below).
* The async database session becomes explicit state passing: every service
  method takes a DBState and returns the result paired with the post-commit
  state.  Each raise site in the source occurs before any mutation of the
  session, and a failed commit rolls back, so error branches return the
  input state unchanged.
* Timestamps (created_at, updated_at) and fields never read by the ledger
  (name, email, password_hash, role, currency) are omitted.
* The binary64 model clamps precision at the subnormal floor 2 ^ (-1074)
  and does not model overflow to infinity at 2 ^ 1024; all monetary
  magnitudes appearing in the claims stay far below that bound.
-/

/-- User row from models.py (class User): id plus the active and verified
flags consulted by the ledger. -/
structure User where
  id : Nat
  active : Bool
  verified : Bool
  deriving DecidableEq

/-- Wallet row from models.py (class Wallet): id, owning user_id, balance.
The balance column is declared Column(Float), an IEEE-754 binary64
double; every double is a rational number, so the field carries its exact
value in ℚ, and the rounded update semantics of the source's float
arithmetic is modelled by the functions using round64 below. -/
structure Wallet where
  id : Nat
  user_id : Nat
  balance : ℚ
  deriving DecidableEq

/-- Transaction row from models.py (class Transaction): owning wallet_id,
kind string, amount, optional category. -/
structure Transaction where
  wallet_id : Nat
  type : String
  amount : ℚ
  category : Option String
  deriving DecidableEq

/-- The persistent store visible to the wallet services: user rows, wallet
rows and the append-only transaction log. -/
structure DBState where
  users : List User
  wallets : List Wallet
  transactions : List Transaction
  deriving DecidableEq

/-- Typed errors raised as HTTPException in services/wallet.py; the
constructor is determined by the raise site (status code and detail).
actorNotPermitted carries the status_detail string ("active" or
"verified") interpolated into the 403 detail message. -/
inductive LedgerError where
  | actorNotPermitted (statusDetail : String)
  | walletNotFound (user_id : Nat)
  | insufficientFunds (currentBalance : ℚ)
  | recipientNotFound (recipient_id : Nat)
  | recipientInactive
  | recipientUnverified
  deriving DecidableEq

/-- Request body of a deposit (schemas/wallet.py, DepositRequest). -/
structure DepositRequest where
  amount : ℚ
  deriving DecidableEq

/-- Request body of a withdrawal (schemas/wallet.py, WithdrawRequest). -/
structure WithdrawRequest where
  amount : ℚ
  deriving DecidableEq

/-- Request body of a purchase (schemas/wallet.py, PurchaseRequest). -/
structure PurchaseRequest where
  amount : ℚ
  category : String
  deriving DecidableEq

/-- Request body of a transfer (schemas/wallet.py, TransferRequest). -/
structure TransferRequest where
  amount : ℚ
  recipient_id : Nat
  spending_category : String
  deriving DecidableEq

/-- Return dict of deposit_funds. -/
structure DepositResult where
  amount_deposited : ℚ
  wallet_balance : ℚ
  deriving DecidableEq

/-- Return dict of withdraw_funds. -/
structure WithdrawResult where
  amount_withdrawn : ℚ
  wallet_balance : ℚ
  deriving DecidableEq

/-- Return dict of buy_goods. -/
structure PurchaseResult where
  amount_spent : ℚ
  wallet_balance : ℚ
  deriving DecidableEq

/-- Return dict of transfer_funds. -/
structure TransferResult where
  amount_transferred : ℚ
  wallet_balance : ℚ
  deriving DecidableEq

/-- Return dict of get_balance. -/
structure BalanceResult where
  balance : ℚ
  deriving DecidableEq

/-- Embedding of get_wallet_info (services/wallet.py): the first wallet row
with the given user_id, or a 404 error when none exists. -/
def get_wallet_info (user_id : Nat) (s : DBState) : Except LedgerError Wallet :=
  match s.wallets.find? (fun w => w.user_id == user_id) with
  | some wallet => .ok wallet
  | none => .error (.walletNotFound user_id)

/-- The status_detail string computed in validate_user_status:
"active" if not user.active else "verified". -/
def status_detail (user : User) : String :=
  if !user.active then "active" else "verified"

/-- Embedding of WalletServices.validate_user_status: raises 403 when the
user is not both active and verified. -/
def validate_user_status (user : User) : Except LedgerError Unit :=
  if !(user.active && user.verified) then
    .error (.actorNotPermitted (status_detail user))
  else
    .ok ()

/-- Effect on the wallet table of the ORM mutation
wallet.balance += delta followed by commit: the row with the mutated
wallet's id takes the new balance, all other rows are unchanged. -/
def adjustWalletBalance (wallets : List Wallet) (wid : Nat) (delta : ℚ) : List Wallet :=
  wallets.map (fun w => if w.id == wid then { w with balance := w.balance + delta } else w)

/-- Balance of the wallet row with the given id, as read back by
db.refresh (0 when the row is absent, which cannot occur in the uses
below). -/
def walletBalanceIn (wallets : List Wallet) (wid : Nat) : ℚ :=
  match wallets.find? (fun w => w.id == wid) with
  | some w => w.balance
  | none => 0

/-- Embedding of WalletServices.deposit_funds with exact rational
arithmetic (the idealization used by the arithmetic-independent claims;
deposit_funds_fl below is the binary64 semantics): validate the user,
load the wallet, credit the amount, append one Deposit transaction,
return the deposited amount with the refreshed balance. -/
def deposit_funds (user : User) (data : DepositRequest) (s : DBState) :
    Except LedgerError DepositResult × DBState :=
  match validate_user_status user with
  | .error e => (.error e, s)
  | .ok _ =>
    match get_wallet_info user.id s with
    | .error e => (.error e, s)
    | .ok wallet =>
      let new_transaction : Transaction :=
        { type := "Deposit", amount := data.amount, wallet_id := wallet.id, category := none }
      (.ok { amount_deposited := data.amount, wallet_balance := wallet.balance + data.amount },
       { s with wallets := adjustWalletBalance s.wallets wallet.id data.amount,
                transactions := s.transactions ++ [new_transaction] })

/-- Embedding of WalletServices.withdraw_funds with exact rational
arithmetic (withdraw_funds_fl below is the binary64 semantics): validate
the user, load the wallet, reject with insufficientFunds when
data.amount > wallet.balance, otherwise debit the amount, append one
Withdraw transaction, return the withdrawn amount with the refreshed
balance. -/
def withdraw_funds (user : User) (data : WithdrawRequest) (s : DBState) :
    Except LedgerError WithdrawResult × DBState :=
  match validate_user_status user with
  | .error e => (.error e, s)
  | .ok _ =>
    match get_wallet_info user.id s with
    | .error e => (.error e, s)
    | .ok wallet =>
      if data.amount > wallet.balance then
        (.error (.insufficientFunds wallet.balance), s)
      else
        let new_transaction : Transaction :=
          { type := "Withdraw", amount := data.amount, wallet_id := wallet.id, category := none }
        (.ok { amount_withdrawn := data.amount, wallet_balance := wallet.balance - data.amount },
         { s with wallets := adjustWalletBalance s.wallets wallet.id (-data.amount),
                  transactions := s.transactions ++ [new_transaction] })

/-- Embedding of WalletServices.buy_goods with exact rational arithmetic
(buy_goods_fl below is the binary64 semantics): same funds rule as
withdrawal, appends one Purchase transaction carrying the category. -/
def buy_goods (user : User) (data : PurchaseRequest) (s : DBState) :
    Except LedgerError PurchaseResult × DBState :=
  match validate_user_status user with
  | .error e => (.error e, s)
  | .ok _ =>
    match get_wallet_info user.id s with
    | .error e => (.error e, s)
    | .ok wallet =>
      if data.amount > wallet.balance then
        (.error (.insufficientFunds wallet.balance), s)
      else
        let new_transaction : Transaction :=
          { type := "Purchase", amount := data.amount, wallet_id := wallet.id,
            category := some data.category }
        (.ok { amount_spent := data.amount, wallet_balance := wallet.balance - data.amount },
         { s with wallets := adjustWalletBalance s.wallets wallet.id (-data.amount),
                  transactions := s.transactions ++ [new_transaction] })

/-- Embedding of WalletServices.transfer_funds with exact rational
arithmetic (transfer_funds_fl below is the binary64 semantics), keeping
the source order of checks: actor status, sender wallet load, funds
check, recipient user lookup, recipient active, recipient verified,
recipient wallet load; then debit the sender object, credit the recipient
object (the ORM identity map makes these the same row when the ids
coincide, hence the sequential adjustments by wallet id), append the
Transfer and Receive transactions, and return the refreshed sender
balance. -/
def transfer_funds (user : User) (data : TransferRequest) (s : DBState) :
    Except LedgerError TransferResult × DBState :=
  match validate_user_status user with
  | .error e => (.error e, s)
  | .ok _ =>
    match get_wallet_info user.id s with
    | .error e => (.error e, s)
    | .ok wallet =>
      if data.amount > wallet.balance then
        (.error (.insufficientFunds wallet.balance), s)
      else
        match s.users.find? (fun u => u.id == data.recipient_id) with
        | none => (.error (.recipientNotFound data.recipient_id), s)
        | some recipient_info =>
          if !recipient_info.active then
            (.error .recipientInactive, s)
          else if !recipient_info.verified then
            (.error .recipientUnverified, s)
          else
            match get_wallet_info data.recipient_id s with
            | .error e => (.error e, s)
            | .ok recipient_wallet =>
              let transaction_data : List Transaction :=
                [ { type := "Transfer", amount := data.amount, wallet_id := wallet.id,
                    category := some data.spending_category },
                  { type := "Receive", amount := data.amount, wallet_id := recipient_wallet.id,
                    category := none } ]
              let wallets' :=
                adjustWalletBalance
                  (adjustWalletBalance s.wallets wallet.id (-data.amount))
                  recipient_wallet.id data.amount
              (.ok { amount_transferred := data.amount,
                     wallet_balance := walletBalanceIn wallets' wallet.id },
               { s with wallets := wallets',
                        transactions := s.transactions ++ transaction_data })

/-- Embedding of WalletServices.get_balance: validate the user, load the
wallet, return its balance; no mutation. -/
def get_balance (user : User) (s : DBState) :
    Except LedgerError BalanceResult × DBState :=
  match validate_user_status user with
  | .error e => (.error e, s)
  | .ok _ =>
    match get_wallet_info user.id s with
    | .error e => (.error e, s)
    | .ok wallet => (.ok { balance := wallet.balance }, s)

/-- One ledger operation as invoked by an external caller: the actor user
record together with the validated request body. -/
inductive Op where
  | deposit (user : User) (data : DepositRequest)
  | withdraw (user : User) (data : WithdrawRequest)
  | purchase (user : User) (data : PurchaseRequest)
  | transfer (user : User) (data : TransferRequest)
  deriving DecidableEq

/-- Run one operation, keeping only success or failure and the post state.
Every service returns the input state unchanged on any raised error, so a
failed operation is a no-op on the store. -/
def stepOp (op : Op) (s : DBState) : Except LedgerError Unit × DBState :=
  match op with
  | .deposit u d => ((deposit_funds u d s).1.map (fun _ => ()), (deposit_funds u d s).2)
  | .withdraw u d => ((withdraw_funds u d s).1.map (fun _ => ()), (withdraw_funds u d s).2)
  | .purchase u d => ((buy_goods u d s).1.map (fun _ => ()), (buy_goods u d s).2)
  | .transfer u d => ((transfer_funds u d s).1.map (fun _ => ()), (transfer_funds u d s).2)

/-- Run a sequence of operations left to right. -/
def applyOps : List Op → DBState → DBState
  | [], s => s
  | op :: ops, s => applyOps ops (stepOp op s).2

/-- The request amount carried by an operation. -/
def Op.amount : Op → ℚ
  | .deposit _ d => d.amount
  | .withdraw _ d => d.amount
  | .purchase _ d => d.amount
  | .transfer _ d => d.amount

/-- The amount contract enforced by every request schema
(amount field declared with gt=0). -/
def Op.amountPos (op : Op) : Prop := 0 < op.amount

instance (op : Op) : Decidable op.amountPos := by
  unfold Op.amountPos
  infer_instance

/-- Amount a committed operation contributes to the total deposited. -/
def depositDelta (op : Op) (r : Except LedgerError Unit) : ℚ :=
  match op, r with
  | .deposit _ d, .ok _ => d.amount
  | _, _ => 0

/-- Amount a committed operation contributes to the total withdrawn. -/
def withdrawDelta (op : Op) (r : Except LedgerError Unit) : ℚ :=
  match op, r with
  | .withdraw _ d, .ok _ => d.amount
  | _, _ => 0

/-- Amount a committed operation contributes to the total spent. -/
def spentDelta (op : Op) (r : Except LedgerError Unit) : ℚ :=
  match op, r with
  | .purchase _ d, .ok _ => d.amount
  | _, _ => 0

/-- Total amount deposited by the successfully committed operations of a
sequence run from the given state. -/
def seqDeposited : List Op → DBState → ℚ
  | [], _ => 0
  | op :: ops, s => depositDelta op (stepOp op s).1 + seqDeposited ops (stepOp op s).2

/-- Total amount withdrawn by the successfully committed operations of a
sequence run from the given state. -/
def seqWithdrawn : List Op → DBState → ℚ
  | [], _ => 0
  | op :: ops, s => withdrawDelta op (stepOp op s).1 + seqWithdrawn ops (stepOp op s).2

/-- Total amount spent on purchases by the successfully committed
operations of a sequence run from the given state. -/
def seqSpent : List Op → DBState → ℚ
  | [], _ => 0
  | op :: ops, s => spentDelta op (stepOp op s).1 + seqSpent ops (stepOp op s).2

/-- Sum of all wallet balances in the store. -/
def sumBalances (wallets : List Wallet) : ℚ := (wallets.map Wallet.balance).sum

/-- Well-formedness of the store mirrored from the schema: wallet ids are
primary keys, hence pairwise distinct. -/
def WF (s : DBState) : Prop := (s.wallets.map Wallet.id).Nodup

instance (s : DBState) : Decidable (WF s) := by
  unfold WF
  infer_instance

/-- Storage representation declared for a monetary column or field. -/
inductive NumericRepr where
  | binaryFloat
  | fixedDecimal
  deriving DecidableEq

/-- Declared type of Wallet.balance in models.py: Column(Float), the
SQL binary floating point type. -/
def Wallet.balance_repr : NumericRepr := .binaryFloat

/-- Declared type of Transaction.amount in models.py: Column(Float). -/
def Transaction.amount_repr : NumericRepr := .binaryFloat

/-- Declared type of DepositRequest.amount in schemas/wallet.py:
float = Field(..., gt=0). -/
def DepositRequest.amount_repr : NumericRepr := .binaryFloat

/-- Declared type of WithdrawRequest.amount in schemas/wallet.py: float. -/
def WithdrawRequest.amount_repr : NumericRepr := .binaryFloat

/-- Declared type of PurchaseRequest.amount in schemas/wallet.py: float. -/
def PurchaseRequest.amount_repr : NumericRepr := .binaryFloat

/-- Declared type of TransferRequest.amount in schemas/wallet.py: float. -/
def TransferRequest.amount_repr : NumericRepr := .binaryFloat

/-- Pydantic validation of the amount field shared by the four request
schemas: Field(..., gt=0). -/
def amountFieldOk (amount : ℚ) : Bool := decide (0 < amount)

/-- Pydantic validation of the category field of PurchaseRequest and of the
spending_category field of TransferRequest:
Field(..., min_length=3, max_length=100). -/
def categoryFieldOk (category : String) : Bool :=
  decide (3 ≤ category.length) && decide (category.length ≤ 100)

/-- Request-schema validation of a PurchaseRequest body. -/
def PurchaseRequest.fieldsOk (r : PurchaseRequest) : Bool :=
  amountFieldOk r.amount && categoryFieldOk r.category

/-- Request-schema validation of a TransferRequest body. -/
def TransferRequest.fieldsOk (r : TransferRequest) : Bool :=
  amountFieldOk r.amount && categoryFieldOk r.spending_category

/-- The validation errors of claim C4: insufficient funds, the recipient
checks and the actor status check (everything except wallet-row lookup
failures and storage failures). -/
def LedgerError.isValidationError : LedgerError → Bool
  | .actorNotPermitted _ => true
  | .walletNotFound _ => false
  | .insufficientFunds _ => true
  | .recipientNotFound _ => true
  | .recipientInactive => true
  | .recipientUnverified => true

/-- Number of binary digits of a natural number (0 for 0); natBits n is
one more than the floor of log2 n for positive n. -/
def natBits (n : Nat) : Nat :=
  if n = 0 then 0 else natBits (n / 2) + 1
decreasing_by exact Nat.div_lt_self (Nat.pos_of_ne_zero (by assumption)) (by norm_num)

/-- Floor of the base-2 logarithm of the positive rational P / Q,
computed from the binary lengths of numerator and denominator with one
corrective comparison. -/
def ratLog2 (P Q : Nat) : ℤ :=
  let e0 : ℤ := (natBits P : ℤ) - (natBits Q : ℤ)
  if 0 ≤ e0 then
    (if Q * 2 ^ e0.toNat ≤ P then e0 else e0 - 1)
  else
    (if Q ≤ P * 2 ^ (-e0).toNat then e0 else e0 - 1)

/-- Round the positive rational P / Q to the nearest IEEE-754 binary64
value (53-bit significand, round to nearest, ties to even, subnormal
precision floor 2 ^ (-1074)).  The unit in the last place is
2 ^ ulpExp; the scaled value N / D is rounded to the nearest integer
significand m and the result is m * 2 ^ ulpExp. -/
def roundPos (P Q : Nat) : ℚ :=
  let e : ℤ := ratLog2 P Q
  let ulpExp : ℤ := if e - 52 < -1074 then -1074 else e - 52
  let N : Nat := if 0 ≤ ulpExp then P else P * 2 ^ (-ulpExp).toNat
  let D : Nat := if 0 ≤ ulpExp then Q * 2 ^ ulpExp.toNat else Q
  let fl : Nat := N / D
  let r : Nat := N % D
  let m : Nat :=
    if 2 * r < D then fl
    else if D < 2 * r then fl + 1
    else if fl % 2 = 0 then fl else fl + 1
  if 0 ≤ ulpExp then ((m * 2 ^ ulpExp.toNat : Nat) : ℚ)
  else (m : ℚ) / ((2 ^ (-ulpExp).toNat : Nat) : ℚ)

/-- IEEE-754 binary64 rounding (round to nearest, ties to even) of an
exact rational value: the rounding applied by every Python float
operation on the Float columns and float fields of the source.  Overflow
to infinity above 2 ^ 1024 is not modelled; monetary magnitudes in this
development stay far below it. -/
def round64 (x : ℚ) : ℚ :=
  if x.num = 0 then 0
  else if 0 < x.num then roundPos x.num.natAbs x.den
  else -roundPos x.num.natAbs x.den

/-- Binary64 effect on the wallet table of the Python float mutation
wallet.balance += delta followed by commit: the stored balance is the
rounded sum. -/
def adjustWalletBalanceFl (wallets : List Wallet) (wid : Nat) (delta : ℚ) : List Wallet :=
  wallets.map (fun w =>
    if w.id == wid then { w with balance := round64 (w.balance + delta) } else w)

/-- Binary64 semantics of WalletServices.deposit_funds: identical to
deposit_funds except that the committed balance is the rounded sum, as
computed by the source's float addition. -/
def deposit_funds_fl (user : User) (data : DepositRequest) (s : DBState) :
    Except LedgerError DepositResult × DBState :=
  match validate_user_status user with
  | .error e => (.error e, s)
  | .ok _ =>
    match get_wallet_info user.id s with
    | .error e => (.error e, s)
    | .ok wallet =>
      let new_transaction : Transaction :=
        { type := "Deposit", amount := data.amount, wallet_id := wallet.id, category := none }
      (.ok { amount_deposited := data.amount,
             wallet_balance := round64 (wallet.balance + data.amount) },
       { s with wallets := adjustWalletBalanceFl s.wallets wallet.id data.amount,
                transactions := s.transactions ++ [new_transaction] })

/-- Binary64 semantics of WalletServices.withdraw_funds: the funds
comparison is exact (float comparison does not round) and the committed
balance is the rounded difference. -/
def withdraw_funds_fl (user : User) (data : WithdrawRequest) (s : DBState) :
    Except LedgerError WithdrawResult × DBState :=
  match validate_user_status user with
  | .error e => (.error e, s)
  | .ok _ =>
    match get_wallet_info user.id s with
    | .error e => (.error e, s)
    | .ok wallet =>
      if data.amount > wallet.balance then
        (.error (.insufficientFunds wallet.balance), s)
      else
        let new_transaction : Transaction :=
          { type := "Withdraw", amount := data.amount, wallet_id := wallet.id, category := none }
        (.ok { amount_withdrawn := data.amount,
               wallet_balance := round64 (wallet.balance - data.amount) },
         { s with wallets := adjustWalletBalanceFl s.wallets wallet.id (-data.amount),
                  transactions := s.transactions ++ [new_transaction] })

/-- Binary64 semantics of WalletServices.buy_goods. -/
def buy_goods_fl (user : User) (data : PurchaseRequest) (s : DBState) :
    Except LedgerError PurchaseResult × DBState :=
  match validate_user_status user with
  | .error e => (.error e, s)
  | .ok _ =>
    match get_wallet_info user.id s with
    | .error e => (.error e, s)
    | .ok wallet =>
      if data.amount > wallet.balance then
        (.error (.insufficientFunds wallet.balance), s)
      else
        let new_transaction : Transaction :=
          { type := "Purchase", amount := data.amount, wallet_id := wallet.id,
            category := some data.category }
        (.ok { amount_spent := data.amount,
               wallet_balance := round64 (wallet.balance - data.amount) },
         { s with wallets := adjustWalletBalanceFl s.wallets wallet.id (-data.amount),
                  transactions := s.transactions ++ [new_transaction] })

/-- Binary64 semantics of WalletServices.transfer_funds: same validation
cascade as transfer_funds; the sender debit and the recipient credit are
each committed rounded, in source order (so a self-transfer credits the
already-debited, already-rounded row). -/
def transfer_funds_fl (user : User) (data : TransferRequest) (s : DBState) :
    Except LedgerError TransferResult × DBState :=
  match validate_user_status user with
  | .error e => (.error e, s)
  | .ok _ =>
    match get_wallet_info user.id s with
    | .error e => (.error e, s)
    | .ok wallet =>
      if data.amount > wallet.balance then
        (.error (.insufficientFunds wallet.balance), s)
      else
        match s.users.find? (fun u => u.id == data.recipient_id) with
        | none => (.error (.recipientNotFound data.recipient_id), s)
        | some recipient_info =>
          if !recipient_info.active then
            (.error .recipientInactive, s)
          else if !recipient_info.verified then
            (.error .recipientUnverified, s)
          else
            match get_wallet_info data.recipient_id s with
            | .error e => (.error e, s)
            | .ok recipient_wallet =>
              let transaction_data : List Transaction :=
                [ { type := "Transfer", amount := data.amount, wallet_id := wallet.id,
                    category := some data.spending_category },
                  { type := "Receive", amount := data.amount, wallet_id := recipient_wallet.id,
                    category := none } ]
              let wallets' :=
                adjustWalletBalanceFl
                  (adjustWalletBalanceFl s.wallets wallet.id (-data.amount))
                  recipient_wallet.id data.amount
              (.ok { amount_transferred := data.amount,
                     wallet_balance := walletBalanceIn wallets' wallet.id },
               { s with wallets := wallets',
                        transactions := s.transactions ++ transaction_data })

/-- Run one operation under the binary64 semantics. -/
def stepOpFl (op : Op) (s : DBState) : Except LedgerError Unit × DBState :=
  match op with
  | .deposit u d => ((deposit_funds_fl u d s).1.map (fun _ => ()), (deposit_funds_fl u d s).2)
  | .withdraw u d => ((withdraw_funds_fl u d s).1.map (fun _ => ()), (withdraw_funds_fl u d s).2)
  | .purchase u d => ((buy_goods_fl u d s).1.map (fun _ => ()), (buy_goods_fl u d s).2)
  | .transfer u d => ((transfer_funds_fl u d s).1.map (fun _ => ()), (transfer_funds_fl u d s).2)

/-- Run a sequence of operations left to right under the binary64
semantics. -/
def applyOpsFl : List Op → DBState → DBState
  | [], s => s
  | op :: ops, s => applyOpsFl ops (stepOpFl op s).2

/-- Total amount deposited by the successfully committed operations of a
sequence run under the binary64 semantics (the request amounts summed
exactly). -/
def seqDepositedFl : List Op → DBState → ℚ
  | [], _ => 0
  | op :: ops, s => depositDelta op (stepOpFl op s).1 + seqDepositedFl ops (stepOpFl op s).2

/-- Total amount withdrawn by the successfully committed operations of a
sequence run under the binary64 semantics. -/
def seqWithdrawnFl : List Op → DBState → ℚ
  | [], _ => 0
  | op :: ops, s => withdrawDelta op (stepOpFl op s).1 + seqWithdrawnFl ops (stepOpFl op s).2

/-- Total amount spent on purchases by the successfully committed
operations of a sequence run under the binary64 semantics. -/
def seqSpentFl : List Op → DBState → ℚ
  | [], _ => 0
  | op :: ops, s => spentDelta op (stepOpFl op s).1 + seqSpentFl ops (stepOpFl op s).2

/-- No-rounding condition for one operation from a given state: every
balance the operation would commit is a binary64 fixed point of the
rounding, so the float arithmetic of this step is exact.  The matches
mirror the control flow of the service methods: operations that fail
validation impose no condition. -/
def stepAdjustsExact (op : Op) (s : DBState) : Prop :=
  match op with
  | .deposit u d =>
    match validate_user_status u, get_wallet_info u.id s with
    | .ok _, .ok w => round64 (w.balance + d.amount) = w.balance + d.amount
    | _, _ => True
  | .withdraw u d =>
    match validate_user_status u, get_wallet_info u.id s with
    | .ok _, .ok w =>
      d.amount ≤ w.balance → round64 (w.balance - d.amount) = w.balance - d.amount
    | _, _ => True
  | .purchase u d =>
    match validate_user_status u, get_wallet_info u.id s with
    | .ok _, .ok w =>
      d.amount ≤ w.balance → round64 (w.balance - d.amount) = w.balance - d.amount
    | _, _ => True
  | .transfer u d =>
    match validate_user_status u, get_wallet_info u.id s,
        s.users.find? (fun x => x.id == d.recipient_id),
        get_wallet_info d.recipient_id s with
    | .ok _, .ok w, some r, .ok rw =>
      d.amount ≤ w.balance → r.active = true → r.verified = true →
        round64 (w.balance - d.amount) = w.balance - d.amount ∧
        round64 ((if rw.id = w.id then w.balance - d.amount else rw.balance) + d.amount)
          = (if rw.id = w.id then w.balance - d.amount else rw.balance) + d.amount
    | _, _, _, _ => True

/-- A whole run is rounding-free: every step's committed balances are
binary64 fixed points, along the binary64 execution. -/
def ExactRun : List Op → DBState → Prop
  | [], _ => True
  | op :: ops, s => stepAdjustsExact op s ∧ ExactRun ops (stepOpFl op s).2

/-- Unfolding lemma: balance adjustment on a cons cell. -/
theorem adjust_cons (w : Wallet) (t : List Wallet) (wid : Nat) (delta : ℚ) :
    adjustWalletBalance (w :: t) wid delta =
      (if w.id = wid then { w with balance := w.balance + delta } else w)
        :: adjustWalletBalance t wid delta := by
  by_cases h : w.id = wid <;> simp [adjustWalletBalance, h]

/-- Unfolding lemma: balance read-back on a cons cell. -/
theorem walletBalanceIn_cons (w : Wallet) (t : List Wallet) (wid : Nat) :
    walletBalanceIn (w :: t) wid
      = if w.id = wid then w.balance else walletBalanceIn t wid := by
  unfold walletBalanceIn
  rw [List.find?_cons]
  by_cases h : w.id = wid
  · simp [h]
  · have hb : (w.id == wid) = false := by simp [h]
    rw [hb, if_neg h]

/-- Unfolding lemma: balance total on a cons cell. -/
theorem sumBalances_cons (w : Wallet) (t : List Wallet) :
    sumBalances (w :: t) = w.balance + sumBalances t := by
  simp [sumBalances]

/-- Adjusting a balance does not change the ids of the wallet rows. -/
theorem adjust_map_id (ws : List Wallet) (wid : Nat) (delta : ℚ) :
    (adjustWalletBalance ws wid delta).map Wallet.id = ws.map Wallet.id := by
  induction ws with
  | nil => rfl
  | cons w t ih =>
    rw [adjust_cons]
    by_cases h : w.id = wid <;> simp [h, ih]

/-- Adjusting a wallet id that is absent from the table is the identity. -/
theorem adjust_of_not_mem (ws : List Wallet) (wid : Nat) (delta : ℚ)
    (h : wid ∉ ws.map Wallet.id) : adjustWalletBalance ws wid delta = ws := by
  induction ws with
  | nil => rfl
  | cons w t ih =>
    simp only [List.map_cons, List.mem_cons, not_or] at h
    have hw : ¬w.id = wid := fun hh => h.1 hh.symm
    rw [adjust_cons, if_neg hw, ih h.2]

/-- Adjusting the balance of a present wallet id changes the total of all
balances by exactly the adjustment (given distinct wallet ids). -/
theorem sumBalances_adjust (ws : List Wallet) (wid : Nat) (delta : ℚ)
    (hmem : wid ∈ ws.map Wallet.id) (hnd : (ws.map Wallet.id).Nodup) :
    sumBalances (adjustWalletBalance ws wid delta) = sumBalances ws + delta := by
  induction ws with
  | nil => simp at hmem
  | cons w t ih =>
    simp only [List.map_cons, List.nodup_cons] at hnd
    rw [adjust_cons]
    by_cases h : w.id = wid
    · rw [if_pos h, sumBalances_cons, sumBalances_cons,
        adjust_of_not_mem t wid delta (h ▸ hnd.1)]
      show w.balance + delta + sumBalances t = w.balance + sumBalances t + delta
      ring
    · have hm : wid ∈ t.map Wallet.id := by
        rcases List.mem_cons.mp hmem with h1 | h1
        · exact absurd h1.symm h
        · exact h1
      rw [if_neg h, sumBalances_cons, sumBalances_cons, ih hm hnd.2]
      ring

/-- Reading back the adjusted wallet id sees the adjusted balance. -/
theorem walletBalanceIn_adjust_same (ws : List Wallet) (wid : Nat) (delta : ℚ)
    (hmem : wid ∈ ws.map Wallet.id) :
    walletBalanceIn (adjustWalletBalance ws wid delta) wid
      = walletBalanceIn ws wid + delta := by
  induction ws with
  | nil => simp at hmem
  | cons w t ih =>
    rw [adjust_cons]
    by_cases h : w.id = wid
    · rw [if_pos h, walletBalanceIn_cons, walletBalanceIn_cons]
      simp [h]
    · have hm : wid ∈ t.map Wallet.id := by
        rcases List.mem_cons.mp hmem with h1 | h1
        · exact absurd h1.symm h
        · exact h1
      rw [if_neg h, walletBalanceIn_cons, walletBalanceIn_cons]
      simp [h, ih hm]

/-- Reading back a different wallet id is unaffected by an adjustment. -/
theorem walletBalanceIn_adjust_other (ws : List Wallet) (wid wid' : Nat) (delta : ℚ)
    (h : wid ≠ wid') :
    walletBalanceIn (adjustWalletBalance ws wid' delta) wid = walletBalanceIn ws wid := by
  induction ws with
  | nil => rfl
  | cons w t ih =>
    rw [adjust_cons]
    by_cases hw' : w.id = wid'
    · have hw : ¬w.id = wid := fun hh => h (hh ▸ hw')
      rw [if_pos hw', walletBalanceIn_cons, walletBalanceIn_cons, ih]
      simp [hw]
    · rw [if_neg hw', walletBalanceIn_cons, walletBalanceIn_cons, ih]

/-- With pairwise distinct wallet ids, looking a member row up by its id
returns that row's balance. -/
theorem walletBalanceIn_of_mem (ws : List Wallet) (w : Wallet)
    (hnd : (ws.map Wallet.id).Nodup) (hmem : w ∈ ws) :
    walletBalanceIn ws w.id = w.balance := by
  induction ws with
  | nil => simp at hmem
  | cons x t ih =>
    simp only [List.map_cons, List.nodup_cons] at hnd
    rcases List.mem_cons.mp hmem with h1 | h1
    · subst h1
      rw [walletBalanceIn_cons, if_pos rfl]
    · have hx : ¬x.id = w.id := by
        intro hh
        exact hnd.1 (hh ▸ List.mem_map_of_mem Wallet.id h1)
      rw [walletBalanceIn_cons, if_neg hx, ih hnd.2 h1]

/-- With pairwise distinct wallet ids, two member rows with the same id are
the same row. -/
theorem wallet_eq_of_id_eq (ws : List Wallet) (w w' : Wallet)
    (hnd : (ws.map Wallet.id).Nodup) (h1 : w ∈ ws) (h2 : w' ∈ ws)
    (hid : w.id = w'.id) : w = w' := by
  induction ws with
  | nil => simp at h1
  | cons x t ih =>
    simp only [List.map_cons, List.nodup_cons] at hnd
    rcases List.mem_cons.mp h1 with ha | ha <;> rcases List.mem_cons.mp h2 with hb | hb
    · exact ha.trans hb.symm
    · exact absurd (ha ▸ hid ▸ List.mem_map_of_mem Wallet.id hb) hnd.1
    · exact absurd (hb ▸ hid.symm ▸ List.mem_map_of_mem Wallet.id ha) hnd.1
    · exact ih hnd.2 ha hb

/-- Debiting and then crediting the same wallet id by the same amount is
the identity on the wallet table. -/
theorem adjust_adjust_cancel (ws : List Wallet) (wid : Nat) (a : ℚ) :
    adjustWalletBalance (adjustWalletBalance ws wid (-a)) wid a = ws := by
  induction ws with
  | nil => rfl
  | cons w t ih =>
    by_cases h : w.id = wid
    · rw [adjust_cons, if_pos h, adjust_cons, if_pos (by simp [h]), ih]
      congr 1
      cases w
      simp
    · rw [adjust_cons, if_neg h, adjust_cons, if_neg h, ih]

/-- A successful wallet lookup returns a member row whose user_id matches. -/
theorem get_wallet_info_ok (uid : Nat) (s : DBState) (w : Wallet)
    (h : get_wallet_info uid s = .ok w) : w ∈ s.wallets ∧ w.user_id = uid := by
  unfold get_wallet_info at h
  rcases hf : s.wallets.find? (fun x => x.user_id == uid) with _ | x <;> rw [hf] at h
  · exact absurd h (by simp)
  · have hx : x = w := by simpa using h
    subst hx
    refine ⟨List.mem_of_find?_eq_some hf, ?_⟩
    have := List.find?_some hf
    simpa using this

/-- The actor check succeeds exactly on active and verified users. -/
theorem validate_user_status_ok (u : User) (h : u.active = true) (h2 : u.verified = true) :
    validate_user_status u = .ok () := by
  simp [validate_user_status, h, h2]

/-- Every balance adjustment keyed on an existing row preserves
distinctness of wallet ids. -/
theorem WF_adjust (s : DBState) (ws : List Wallet) (hWF : WF s)
    (h : ws.map Wallet.id = s.wallets.map Wallet.id) (ts : List Transaction) (us : List User) :
    WF { users := us, wallets := ws, transactions := ts } := by
  unfold WF at hWF ⊢
  simpa [h] using hWF

/-- Pointwise non-negativity is preserved by an adjustment whose target
rows stay non-negative. -/
theorem nonneg_adjust (ws : List Wallet) (wid : Nat) (delta : ℚ)
    (hn : ∀ w ∈ ws, 0 ≤ w.balance)
    (hdelta : ∀ w ∈ ws, w.id = wid → 0 ≤ w.balance + delta) :
    ∀ w ∈ adjustWalletBalance ws wid delta, 0 ≤ w.balance := by
  intro w' hw'
  rcases List.mem_map.mp (by simpa [adjustWalletBalance] using hw') with ⟨w, hw, rfl⟩
  by_cases h : w.id = wid
  · simpa [h] using hdelta w hw h
  · simpa [h] using hn w hw

/-- A single operation preserves distinctness of wallet ids. -/
theorem stepOp_WF (op : Op) (s : DBState) (hWF : WF s) : WF (stepOp op s).2 := by
  cases op with
  | deposit u d =>
    cases hv : validate_user_status u with
    | error e => simpa [stepOp, deposit_funds, hv] using hWF
    | ok v =>
      cases hw : get_wallet_info u.id s with
      | error e => simpa [stepOp, deposit_funds, hv, hw] using hWF
      | ok wallet =>
        simp only [stepOp, deposit_funds, hv, hw]
        unfold WF at hWF ⊢
        simpa [adjust_map_id] using hWF
  | withdraw u d =>
    cases hv : validate_user_status u with
    | error e => simpa [stepOp, withdraw_funds, hv] using hWF
    | ok v =>
      cases hw : get_wallet_info u.id s with
      | error e => simpa [stepOp, withdraw_funds, hv, hw] using hWF
      | ok wallet =>
        by_cases hf : d.amount > wallet.balance
        · simpa [stepOp, withdraw_funds, hv, hw, hf] using hWF
        · simp only [stepOp, withdraw_funds, hv, hw, if_neg hf]
          unfold WF at hWF ⊢
          simpa [adjust_map_id] using hWF
  | purchase u d =>
    cases hv : validate_user_status u with
    | error e => simpa [stepOp, buy_goods, hv] using hWF
    | ok v =>
      cases hw : get_wallet_info u.id s with
      | error e => simpa [stepOp, buy_goods, hv, hw] using hWF
      | ok wallet =>
        by_cases hf : d.amount > wallet.balance
        · simpa [stepOp, buy_goods, hv, hw, hf] using hWF
        · simp only [stepOp, buy_goods, hv, hw, if_neg hf]
          unfold WF at hWF ⊢
          simpa [adjust_map_id] using hWF
  | transfer u d =>
    cases hv : validate_user_status u with
    | error e => simpa [stepOp, transfer_funds, hv] using hWF
    | ok v =>
      cases hw : get_wallet_info u.id s with
      | error e => simpa [stepOp, transfer_funds, hv, hw] using hWF
      | ok wallet =>
        by_cases hf : d.amount > wallet.balance
        · simpa [stepOp, transfer_funds, hv, hw, hf] using hWF
        · cases hr : s.users.find? (fun x => x.id == d.recipient_id) with
          | none => simpa [stepOp, transfer_funds, hv, hw, hf, hr] using hWF
          | some recipient_info =>
            by_cases ha : recipient_info.active
            · by_cases hve : recipient_info.verified
              · cases hrw : get_wallet_info d.recipient_id s with
                | error e =>
                  simpa [stepOp, transfer_funds, hv, hw, hf, hr, ha, hve, hrw] using hWF
                | ok recipient_wallet =>
                  simp only [stepOp, transfer_funds, hv, hw, if_neg hf, hr, ha, hve, hrw,
                    Bool.not_true, Bool.false_eq_true, if_false]
                  unfold WF at hWF ⊢
                  simpa [adjust_map_id] using hWF
              · simpa [stepOp, transfer_funds, hv, hw, hf, hr, ha, hve] using hWF
            · simpa [stepOp, transfer_funds, hv, hw, hf, hr, ha] using hWF

/-- One operation changes the conserved quantity (balances plus money that
left the system, minus money that entered it) by nothing: a committed
deposit adds its amount to both sides, committed withdrawals and purchases
move their amount from the balances to the outflow totals, committed
transfers move money between two balances, and failed operations do not
touch the store. -/
theorem stepOp_conservation (op : Op) (s : DBState) (hWF : WF s) :
    sumBalances (stepOp op s).2.wallets
        + withdrawDelta op (stepOp op s).1 + spentDelta op (stepOp op s).1
      = sumBalances s.wallets + depositDelta op (stepOp op s).1 := by
  cases op with
  | deposit u d =>
    cases hv : validate_user_status u with
    | error e => simp [stepOp, deposit_funds, hv, depositDelta, withdrawDelta, spentDelta, Except.map]
    | ok v =>
      cases hw : get_wallet_info u.id s with
      | error e => simp [stepOp, deposit_funds, hv, hw, depositDelta, withdrawDelta, spentDelta, Except.map]
      | ok wallet =>
        have hmem : wallet.id ∈ s.wallets.map Wallet.id :=
          List.mem_map_of_mem Wallet.id (get_wallet_info_ok u.id s wallet hw).1
        simp only [stepOp, deposit_funds, hv, hw, depositDelta, withdrawDelta, spentDelta,
          Except.map]
        rw [sumBalances_adjust s.wallets wallet.id d.amount hmem hWF]
        ring
  | withdraw u d =>
    cases hv : validate_user_status u with
    | error e => simp [stepOp, withdraw_funds, hv, depositDelta, withdrawDelta, spentDelta, Except.map]
    | ok v =>
      cases hw : get_wallet_info u.id s with
      | error e => simp [stepOp, withdraw_funds, hv, hw, depositDelta, withdrawDelta, spentDelta, Except.map]
      | ok wallet =>
        by_cases hf : d.amount > wallet.balance
        · simp [stepOp, withdraw_funds, hv, hw, hf, depositDelta, withdrawDelta, spentDelta, Except.map]
        · have hmem : wallet.id ∈ s.wallets.map Wallet.id :=
            List.mem_map_of_mem Wallet.id (get_wallet_info_ok u.id s wallet hw).1
          simp only [stepOp, withdraw_funds, hv, hw, if_neg hf, depositDelta, withdrawDelta,
            spentDelta, Except.map]
          rw [sumBalances_adjust s.wallets wallet.id (-d.amount) hmem hWF]
          ring
  | purchase u d =>
    cases hv : validate_user_status u with
    | error e => simp [stepOp, buy_goods, hv, depositDelta, withdrawDelta, spentDelta, Except.map]
    | ok v =>
      cases hw : get_wallet_info u.id s with
      | error e => simp [stepOp, buy_goods, hv, hw, depositDelta, withdrawDelta, spentDelta, Except.map]
      | ok wallet =>
        by_cases hf : d.amount > wallet.balance
        · simp [stepOp, buy_goods, hv, hw, hf, depositDelta, withdrawDelta, spentDelta, Except.map]
        · have hmem : wallet.id ∈ s.wallets.map Wallet.id :=
            List.mem_map_of_mem Wallet.id (get_wallet_info_ok u.id s wallet hw).1
          simp only [stepOp, buy_goods, hv, hw, if_neg hf, depositDelta, withdrawDelta,
            spentDelta, Except.map]
          rw [sumBalances_adjust s.wallets wallet.id (-d.amount) hmem hWF]
          ring
  | transfer u d =>
    cases hv : validate_user_status u with
    | error e => simp [stepOp, transfer_funds, hv, depositDelta, withdrawDelta, spentDelta, Except.map]
    | ok v =>
      cases hw : get_wallet_info u.id s with
      | error e => simp [stepOp, transfer_funds, hv, hw, depositDelta, withdrawDelta, spentDelta, Except.map]
      | ok wallet =>
        by_cases hf : d.amount > wallet.balance
        · simp [stepOp, transfer_funds, hv, hw, hf, depositDelta, withdrawDelta, spentDelta, Except.map]
        · cases hr : s.users.find? (fun x => x.id == d.recipient_id) with
          | none =>
            simp [stepOp, transfer_funds, hv, hw, hf, hr, depositDelta, withdrawDelta, spentDelta, Except.map]
          | some recipient_info =>
            by_cases ha : recipient_info.active
            · by_cases hve : recipient_info.verified
              · cases hrw : get_wallet_info d.recipient_id s with
                | error e =>
                  simp [stepOp, transfer_funds, hv, hw, hf, hr, ha, hve, hrw,
                    depositDelta, withdrawDelta, spentDelta, Except.map]
                | ok recipient_wallet =>
                  have hmem : wallet.id ∈ s.wallets.map Wallet.id :=
                    List.mem_map_of_mem Wallet.id (get_wallet_info_ok u.id s wallet hw).1
                  have hmem2 : recipient_wallet.id ∈
                      (adjustWalletBalance s.wallets wallet.id (-d.amount)).map Wallet.id := by
                    rw [adjust_map_id]
                    exact List.mem_map_of_mem Wallet.id
                      (get_wallet_info_ok d.recipient_id s recipient_wallet hrw).1
                  have hnd2 : ((adjustWalletBalance s.wallets wallet.id (-d.amount)).map
                      Wallet.id).Nodup := by
                    rw [adjust_map_id]; exact hWF
                  simp only [stepOp, transfer_funds, hv, hw, if_neg hf, hr, ha, hve, hrw,
                    Bool.not_true, Bool.false_eq_true, if_false, depositDelta, withdrawDelta,
                    spentDelta, Except.map]
                  rw [sumBalances_adjust _ recipient_wallet.id d.amount hmem2 hnd2,
                    sumBalances_adjust s.wallets wallet.id (-d.amount) hmem hWF]
                  ring
              · simp [stepOp, transfer_funds, hv, hw, hf, hr, ha, hve,
                  depositDelta, withdrawDelta, spentDelta, Except.map]
            · simp [stepOp, transfer_funds, hv, hw, hf, hr, ha,
                depositDelta, withdrawDelta, spentDelta, Except.map]

/-- One operation with a positive request amount keeps every wallet
balance non-negative: deposits and credits only add, and the debits of
withdrawals, purchases and transfers are guarded by the funds check. -/
theorem stepOp_nonneg (op : Op) (s : DBState) (hWF : WF s) (hpos : op.amountPos)
    (hn : ∀ w ∈ s.wallets, 0 ≤ w.balance) :
    ∀ w ∈ (stepOp op s).2.wallets, 0 ≤ w.balance := by
  cases op with
  | deposit u d =>
    have hp : 0 < d.amount := hpos
    cases hv : validate_user_status u with
    | error e => simpa [stepOp, deposit_funds, hv] using hn
    | ok v =>
      cases hw : get_wallet_info u.id s with
      | error e => simpa [stepOp, deposit_funds, hv, hw] using hn
      | ok wallet =>
        simp only [stepOp, deposit_funds, hv, hw]
        exact nonneg_adjust _ _ _ hn
          (fun w hwm _ => add_nonneg (hn w hwm) (le_of_lt hp))
  | withdraw u d =>
    have hp : 0 < d.amount := hpos
    cases hv : validate_user_status u with
    | error e => simpa [stepOp, withdraw_funds, hv] using hn
    | ok v =>
      cases hw : get_wallet_info u.id s with
      | error e => simpa [stepOp, withdraw_funds, hv, hw] using hn
      | ok wallet =>
        by_cases hf : d.amount > wallet.balance
        · simpa [stepOp, withdraw_funds, hv, hw, hf] using hn
        · simp only [stepOp, withdraw_funds, hv, hw, if_neg hf]
          refine nonneg_adjust _ _ _ hn (fun w hwm hid => ?_)
          have hww : w = wallet :=
            wallet_eq_of_id_eq s.wallets w wallet hWF hwm
              (get_wallet_info_ok u.id s wallet hw).1 hid
          subst hww
          have := not_lt.mp hf
          linarith
  | purchase u d =>
    have hp : 0 < d.amount := hpos
    cases hv : validate_user_status u with
    | error e => simpa [stepOp, buy_goods, hv] using hn
    | ok v =>
      cases hw : get_wallet_info u.id s with
      | error e => simpa [stepOp, buy_goods, hv, hw] using hn
      | ok wallet =>
        by_cases hf : d.amount > wallet.balance
        · simpa [stepOp, buy_goods, hv, hw, hf] using hn
        · simp only [stepOp, buy_goods, hv, hw, if_neg hf]
          refine nonneg_adjust _ _ _ hn (fun w hwm hid => ?_)
          have hww : w = wallet :=
            wallet_eq_of_id_eq s.wallets w wallet hWF hwm
              (get_wallet_info_ok u.id s wallet hw).1 hid
          subst hww
          have := not_lt.mp hf
          linarith
  | transfer u d =>
    have hp : 0 < d.amount := hpos
    cases hv : validate_user_status u with
    | error e => simpa [stepOp, transfer_funds, hv] using hn
    | ok v =>
      cases hw : get_wallet_info u.id s with
      | error e => simpa [stepOp, transfer_funds, hv, hw] using hn
      | ok wallet =>
        by_cases hf : d.amount > wallet.balance
        · simpa [stepOp, transfer_funds, hv, hw, hf] using hn
        · cases hr : s.users.find? (fun x => x.id == d.recipient_id) with
          | none => simpa [stepOp, transfer_funds, hv, hw, hf, hr] using hn
          | some recipient_info =>
            by_cases ha : recipient_info.active
            · by_cases hve : recipient_info.verified
              · cases hrw : get_wallet_info d.recipient_id s with
                | error e =>
                  simpa [stepOp, transfer_funds, hv, hw, hf, hr, ha, hve, hrw] using hn
                | ok recipient_wallet =>
                  have hdebit : ∀ w ∈ adjustWalletBalance s.wallets wallet.id (-d.amount),
                      0 ≤ w.balance := by
                    refine nonneg_adjust _ _ _ hn (fun w hwm hid => ?_)
                    have hww : w = wallet :=
                      wallet_eq_of_id_eq s.wallets w wallet hWF hwm
                        (get_wallet_info_ok u.id s wallet hw).1 hid
                    subst hww
                    have := not_lt.mp hf
                    linarith
                  simp only [stepOp, transfer_funds, hv, hw, if_neg hf, hr, ha, hve, hrw,
                    Bool.not_true, Bool.false_eq_true, if_false]
                  exact nonneg_adjust _ _ _ hdebit
                    (fun w hwm _ => add_nonneg (hdebit w hwm) (le_of_lt hp))
              · simpa [stepOp, transfer_funds, hv, hw, hf, hr, ha, hve] using hn
            · simpa [stepOp, transfer_funds, hv, hw, hf, hr, ha] using hn

/-- Running a sequence of operations preserves the conservation identity
relative to the starting balances. -/
theorem applyOps_conservation (ops : List Op) (s : DBState) (hWF : WF s) :
    sumBalances (applyOps ops s).wallets + seqWithdrawn ops s + seqSpent ops s
      = sumBalances s.wallets + seqDeposited ops s := by
  induction ops generalizing s with
  | nil => simp [applyOps, seqWithdrawn, seqSpent, seqDeposited]
  | cons op ops ih =>
    have h1 := stepOp_conservation op s hWF
    have h2 := ih (stepOp op s).2 (stepOp_WF op s hWF)
    simp only [applyOps, seqWithdrawn, seqSpent, seqDeposited]
    linarith

/-- Running a sequence of operations with positive amounts keeps every
balance non-negative. -/
theorem applyOps_nonneg (ops : List Op) (s : DBState) (hWF : WF s)
    (hpos : ∀ op ∈ ops, op.amountPos) (hn : ∀ w ∈ s.wallets, 0 ≤ w.balance) :
    ∀ w ∈ (applyOps ops s).wallets, 0 ≤ w.balance := by
  induction ops generalizing s with
  | nil => simpa [applyOps] using hn
  | cons op ops ih =>
    simp only [applyOps]
    exact ih (stepOp op s).2 (stepOp_WF op s hWF)
      (fun o ho => hpos o (List.mem_cons_of_mem _ ho))
      (stepOp_nonneg op s hWF (hpos op (List.mem_cons_self _ _)) hn)

/-- Conservation of money under the exact-arithmetic semantics: for every
finite sequence of operations over a closed set of wallets (each starting
at balance 0), the sum of all wallet balances plus the total amount
withdrawn and spent equals the total amount deposited.  Failed operations
leave the store untouched and contribute nothing to the totals.  This is
the rounding-free core used by the binary64 statement below. -/
theorem conservation_of_money (ops : List Op) (s0 : DBState) (hWF : WF s0)
    (hzero : ∀ w ∈ s0.wallets, w.balance = 0) :
    sumBalances (applyOps ops s0).wallets + seqWithdrawn ops s0 + seqSpent ops s0
      = seqDeposited ops s0 := by
  have h0 : sumBalances s0.wallets = 0 := by
    unfold sumBalances
    apply List.sum_eq_zero
    intro x hx
    rcases List.mem_map.mp hx with ⟨w, hw, rfl⟩
    exact hzero w hw
  have := applyOps_conservation ops s0 hWF
  rw [h0] at this
  linarith

/-- C2: Non-negativity invariant: starting from wallets created with
balance 0, every wallet balance stays at least 0 before and after every
committed operation (every prefix of the operation sequence, each
operation carrying a positive amount as the request schemas require). -/
theorem balance_nonneg_invariant (ops : List Op) (s0 : DBState) (hWF : WF s0)
    (hzero : ∀ w ∈ s0.wallets, w.balance = 0)
    (hpos : ∀ op ∈ ops, op.amountPos) :
    ∀ n, ∀ w ∈ (applyOps (ops.take n) s0).wallets, 0 ≤ w.balance := by
  intro n
  exact applyOps_nonneg (ops.take n) s0 hWF
    (fun op ho => hpos op (List.take_subset n ops ho))
    (fun w hw => le_of_eq (hzero w hw).symm)

/-- Witness for C2 on a concrete two-user store and a four-operation
sequence with positive amounts. -/
theorem balance_nonneg_invariant_witness :
    WF { users := [⟨1, true, true⟩, ⟨2, true, true⟩],
         wallets := [⟨10, 1, 0⟩, ⟨20, 2, 0⟩], transactions := [] } ∧
    (∀ w ∈ (DBState.mk [⟨1, true, true⟩, ⟨2, true, true⟩]
        [⟨10, 1, 0⟩, ⟨20, 2, 0⟩] []).wallets, w.balance = 0) ∧
    (∀ op ∈ [Op.deposit ⟨1, true, true⟩ ⟨4⟩, Op.transfer ⟨1, true, true⟩ ⟨3, 2, "Family"⟩,
        Op.withdraw ⟨2, true, true⟩ ⟨3⟩, Op.purchase ⟨1, true, true⟩ ⟨1, "Rent"⟩],
      op.amountPos) ∧
    (∀ n, ∀ w ∈ (applyOps
        ([Op.deposit ⟨1, true, true⟩ ⟨4⟩, Op.transfer ⟨1, true, true⟩ ⟨3, 2, "Family"⟩,
          Op.withdraw ⟨2, true, true⟩ ⟨3⟩, Op.purchase ⟨1, true, true⟩ ⟨1, "Rent"⟩].take n)
        (DBState.mk [⟨1, true, true⟩, ⟨2, true, true⟩]
          [⟨10, 1, 0⟩, ⟨20, 2, 0⟩] [])).wallets, 0 ≤ w.balance) :=
  ⟨by decide, by decide, by decide,
    balance_nonneg_invariant _ _ (by decide) (by decide) (by decide)⟩

/-- C4: Atomicity on validation failure: whenever withdraw_funds,
buy_goods or transfer_funds fails with one of the typed validation errors
(insufficient funds, recipient not found, recipient inactive, recipient
unverified, or an actor-status error), the post state equals the state
before the call: no wallet balance changes and no transaction record is
appended. -/
theorem validation_failure_atomicity
    (u : User) (wr : WithdrawRequest) (pr : PurchaseRequest) (tr : TransferRequest)
    (s : DBState) :
    (∀ e, (withdraw_funds u wr s).1 = .error e → e.isValidationError = true →
        (withdraw_funds u wr s).2 = s) ∧
    (∀ e, (buy_goods u pr s).1 = .error e → e.isValidationError = true →
        (buy_goods u pr s).2 = s) ∧
    (∀ e, (transfer_funds u tr s).1 = .error e → e.isValidationError = true →
        (transfer_funds u tr s).2 = s) := by
  refine ⟨?_, ?_, ?_⟩ <;> intro e herr hval
  · cases hv : validate_user_status u with
    | error e2 => simp [withdraw_funds, hv]
    | ok v =>
      cases hw : get_wallet_info u.id s with
      | error e2 => simp [withdraw_funds, hv, hw]
      | ok wallet =>
        by_cases hf : wr.amount > wallet.balance
        · simp [withdraw_funds, hv, hw, hf]
        · simp [withdraw_funds, hv, hw, hf] at herr
  · cases hv : validate_user_status u with
    | error e2 => simp [buy_goods, hv]
    | ok v =>
      cases hw : get_wallet_info u.id s with
      | error e2 => simp [buy_goods, hv, hw]
      | ok wallet =>
        by_cases hf : pr.amount > wallet.balance
        · simp [buy_goods, hv, hw, hf]
        · simp [buy_goods, hv, hw, hf] at herr
  · cases hv : validate_user_status u with
    | error e2 => simp [transfer_funds, hv]
    | ok v =>
      cases hw : get_wallet_info u.id s with
      | error e2 => simp [transfer_funds, hv, hw]
      | ok wallet =>
        by_cases hf : tr.amount > wallet.balance
        · simp [transfer_funds, hv, hw, hf]
        · cases hr : s.users.find? (fun x => x.id == tr.recipient_id) with
          | none => simp [transfer_funds, hv, hw, hf, hr]
          | some recipient_info =>
            by_cases ha : recipient_info.active
            · by_cases hve : recipient_info.verified
              · cases hrw : get_wallet_info tr.recipient_id s with
                | error e2 => simp [transfer_funds, hv, hw, hf, hr, ha, hve, hrw]
                | ok recipient_wallet =>
                  simp [transfer_funds, hv, hw, hf, hr, ha, hve, hrw] at herr
              · simp [transfer_funds, hv, hw, hf, hr, ha, hve]
            · simp [transfer_funds, hv, hw, hf, hr, ha]

/-- Witness for C4: an inactive caller's withdrawal fails with the
actor-status error and leaves the one-wallet store untouched. -/
theorem validation_failure_atomicity_witness :
    (withdraw_funds ⟨1, false, false⟩ ⟨5⟩
        (DBState.mk [⟨1, false, false⟩] [⟨10, 1, 30⟩] [])).1
      = .error (.actorNotPermitted "active") ∧
    LedgerError.isValidationError (.actorNotPermitted "active") = true ∧
    (withdraw_funds ⟨1, false, false⟩ ⟨5⟩
        (DBState.mk [⟨1, false, false⟩] [⟨10, 1, 30⟩] [])).2
      = DBState.mk [⟨1, false, false⟩] [⟨10, 1, 30⟩] [] :=
  ⟨by rfl, by rfl,
    (validation_failure_atomicity ⟨1, false, false⟩ ⟨5⟩ ⟨5, "Rent"⟩ ⟨5, 2, "Rent"⟩
        (DBState.mk [⟨1, false, false⟩] [⟨10, 1, 30⟩] [])).1
      (.actorNotPermitted "active") (by rfl) (by rfl)⟩

/-- C6: Validation order of transfer_funds: the actor-status check is
decided before the sender funds check, the funds check before the
recipient-existence check, and that before the recipient-status checks
(active before verified); with several preconditions violated at once the
earliest check's error is returned (in particular, insufficient funds to
an inactive recipient reports insufficientFunds). -/
theorem transfer_validation_order (u : User) (data : TransferRequest) (s : DBState) :
    ((u.active && u.verified) = false →
      (transfer_funds u data s).1 = .error (.actorNotPermitted (status_detail u))) ∧
    (∀ w, (u.active && u.verified) = true → get_wallet_info u.id s = .ok w →
      w.balance < data.amount →
      (transfer_funds u data s).1 = .error (.insufficientFunds w.balance)) ∧
    (∀ w, (u.active && u.verified) = true → get_wallet_info u.id s = .ok w →
      data.amount ≤ w.balance →
      s.users.find? (fun x => x.id == data.recipient_id) = none →
      (transfer_funds u data s).1 = .error (.recipientNotFound data.recipient_id)) ∧
    (∀ w r, (u.active && u.verified) = true → get_wallet_info u.id s = .ok w →
      data.amount ≤ w.balance →
      s.users.find? (fun x => x.id == data.recipient_id) = some r →
      r.active = false →
      (transfer_funds u data s).1 = .error .recipientInactive) ∧
    (∀ w r, (u.active && u.verified) = true → get_wallet_info u.id s = .ok w →
      data.amount ≤ w.balance →
      s.users.find? (fun x => x.id == data.recipient_id) = some r →
      r.active = true → r.verified = false →
      (transfer_funds u data s).1 = .error .recipientUnverified) := by
  refine ⟨?_, ?_, ?_, ?_, ?_⟩
  · intro hb
    simp [transfer_funds, validate_user_status, hb]
  · intro w hb hw hflt
    have hv : validate_user_status u = .ok () := by simp [validate_user_status, hb]
    simp [transfer_funds, hv, hw, hflt]
  · intro w hb hw hle hr
    have hv : validate_user_status u = .ok () := by simp [validate_user_status, hb]
    have hf : ¬ data.amount > w.balance := not_lt.mpr hle
    simp [transfer_funds, hv, hw, hf, hr]
  · intro w r hb hw hle hr hra
    have hv : validate_user_status u = .ok () := by simp [validate_user_status, hb]
    have hf : ¬ data.amount > w.balance := not_lt.mpr hle
    simp [transfer_funds, hv, hw, hf, hr, hra]
  · intro w r hb hw hle hr hra hrv
    have hv : validate_user_status u = .ok () := by simp [validate_user_status, hb]
    have hf : ¬ data.amount > w.balance := not_lt.mpr hle
    simp [transfer_funds, hv, hw, hf, hr, hra, hrv]

/-- Witness for C6: a transfer with insufficient funds (balance 3, amount
5) to an inactive recipient reports insufficientFunds, not
recipientInactive. -/
theorem transfer_validation_order_witness :
    (true && true) = true ∧
    get_wallet_info 1 (DBState.mk [⟨1, true, true⟩, ⟨2, false, false⟩]
        [⟨10, 1, 3⟩, ⟨20, 2, 0⟩] []) = .ok ⟨10, 1, 3⟩ ∧
    (3:ℚ) < 5 ∧
    (transfer_funds ⟨1, true, true⟩ ⟨5, 2, "Family"⟩
        (DBState.mk [⟨1, true, true⟩, ⟨2, false, false⟩]
          [⟨10, 1, 3⟩, ⟨20, 2, 0⟩] [])).1
      = .error (.insufficientFunds 3) :=
  ⟨by decide, by rfl, by decide,
    (transfer_validation_order ⟨1, true, true⟩ ⟨5, 2, "Family"⟩
        (DBState.mk [⟨1, true, true⟩, ⟨2, false, false⟩]
          [⟨10, 1, 3⟩, ⟨20, 2, 0⟩] [])).2.1
      ⟨10, 1, 3⟩ (by decide) (by rfl) (by decide)⟩

/-- C10: Actor-status error precedence: for every operation (deposit,
withdraw, purchase, transfer, balance query), a caller who is both
inactive and unverified fails with the actor error whose detail names
"active"; the detail "verified" can only arise for a caller who is active
but unverified. -/
theorem actor_status_error_precedence (u : User) (dr : DepositRequest)
    (wr : WithdrawRequest) (pr : PurchaseRequest) (tr : TransferRequest) (s : DBState) :
    (u.active = false → u.verified = false →
      (deposit_funds u dr s).1 = .error (.actorNotPermitted "active") ∧
      (withdraw_funds u wr s).1 = .error (.actorNotPermitted "active") ∧
      (buy_goods u pr s).1 = .error (.actorNotPermitted "active") ∧
      (transfer_funds u tr s).1 = .error (.actorNotPermitted "active") ∧
      (get_balance u s).1 = .error (.actorNotPermitted "active")) ∧
    (validate_user_status u = .error (.actorNotPermitted "verified") →
      u.active = true ∧ u.verified = false) := by
  constructor
  · intro hina _
    have hv : validate_user_status u = .error (.actorNotPermitted "active") := by
      simp [validate_user_status, status_detail, hina]
    exact ⟨by simp [deposit_funds, hv], by simp [withdraw_funds, hv],
      by simp [buy_goods, hv], by simp [transfer_funds, hv], by simp [get_balance, hv]⟩
  · intro h
    by_cases ha : u.active = true
    · by_cases hb : u.verified = true
      · rw [validate_user_status_ok u ha hb] at h
        exact absurd h (by simp)
      · exact ⟨ha, by simpa using hb⟩
    · have ha' : u.active = false := by simpa using ha
      simp [validate_user_status, status_detail, ha'] at h

/-- Witness for C10: an inactive and unverified caller gets the "active"
detail from every operation. -/
theorem actor_status_error_precedence_witness :
    (User.mk 1 false false).active = false ∧
    (User.mk 1 false false).verified = false ∧
    ((deposit_funds ⟨1, false, false⟩ ⟨5⟩
        (DBState.mk [⟨1, false, false⟩] [⟨10, 1, 30⟩] [])).1
      = .error (.actorNotPermitted "active") ∧
     (withdraw_funds ⟨1, false, false⟩ ⟨5⟩
        (DBState.mk [⟨1, false, false⟩] [⟨10, 1, 30⟩] [])).1
      = .error (.actorNotPermitted "active") ∧
     (buy_goods ⟨1, false, false⟩ ⟨5, "Rent"⟩
        (DBState.mk [⟨1, false, false⟩] [⟨10, 1, 30⟩] [])).1
      = .error (.actorNotPermitted "active") ∧
     (transfer_funds ⟨1, false, false⟩ ⟨5, 2, "Rent"⟩
        (DBState.mk [⟨1, false, false⟩] [⟨10, 1, 30⟩] [])).1
      = .error (.actorNotPermitted "active") ∧
     (get_balance ⟨1, false, false⟩
        (DBState.mk [⟨1, false, false⟩] [⟨10, 1, 30⟩] [])).1
      = .error (.actorNotPermitted "active")) :=
  ⟨rfl, rfl,
    (actor_status_error_precedence ⟨1, false, false⟩ ⟨5⟩ ⟨5⟩ ⟨5, "Rent"⟩ ⟨5, 2, "Rent"⟩
        (DBState.mk [⟨1, false, false⟩] [⟨10, 1, 30⟩] [])).1 rfl rfl⟩

/-- Counterexample for C7: the declared storage representation of wallet
balances and transaction amounts in models.py is the SQLAlchemy Float
column type (binary floating point), not a fixed-point decimal type; the
request schemas likewise declare the amount as a pydantic float. -/
theorem monetary_representation_counterexample :
    Wallet.balance_repr = NumericRepr.binaryFloat ∧
    Transaction.amount_repr = NumericRepr.binaryFloat ∧
    DepositRequest.amount_repr = NumericRepr.binaryFloat ∧
    Wallet.balance_repr ≠ NumericRepr.fixedDecimal := by
  decide

/-- C7 (amended): every monetary column and field of the data model and
the request schemas is declared as binary floating point (SQLAlchemy
Float, pydantic float), not fixed-point decimal; and every dyadic
rational m / 2 ^ k keeps a strictly positive distance from 1/10, so the
value 0.10 has no exact binary floating point representation and the
representation does not rule out fractional-cent drift. -/
theorem monetary_representation_is_binary_float :
    Wallet.balance_repr = NumericRepr.binaryFloat ∧
    Transaction.amount_repr = NumericRepr.binaryFloat ∧
    DepositRequest.amount_repr = NumericRepr.binaryFloat ∧
    WithdrawRequest.amount_repr = NumericRepr.binaryFloat ∧
    PurchaseRequest.amount_repr = NumericRepr.binaryFloat ∧
    TransferRequest.amount_repr = NumericRepr.binaryFloat ∧
    (∀ m : ℤ, ∀ k : ℕ, 0 < |(m : ℚ) / 2 ^ k - 1 / 10|) := by
  refine ⟨rfl, rfl, rfl, rfl, rfl, rfl, ?_⟩
  intro m k
  rw [abs_pos, sub_ne_zero]
  intro h
  have hk : ((2:ℚ) ^ k) ≠ 0 := pow_ne_zero k two_ne_zero
  rw [div_eq_div_iff hk (by norm_num)] at h
  have h' : (10 * m : ℤ) = 2 ^ k := by
    have h2 : ((10 * m : ℤ) : ℚ) = ((2 ^ k : ℤ) : ℚ) := by
      push_cast
      linarith
    exact_mod_cast h2
  have h5 : (5:ℤ) ∣ 2 ^ k := ⟨2 * m, by linarith⟩
  have hp : Prime (5:ℤ) := by
    rw [Int.prime_iff_natAbs_prime]
    norm_num
  have := hp.dvd_of_dvd_pow h5
  norm_num at this

/-- Counterexample for C8: the two-character category "ab" has length
between 1 and 100 but is rejected by the request-schema category check
(min_length is 3 in the source, not 1). -/
theorem category_length_counterexample :
    categoryFieldOk "ab" = false ∧
    1 ≤ ("ab" : String).length ∧ ("ab" : String).length ≤ 100 := by
  decide

/-- C8 (amended): the request-schema check shared by PurchaseRequest and
TransferRequest accepts a category string exactly when its length is
between 3 and 100 characters inclusive; strings of length 1 or 2 are
rejected. -/
theorem category_length_amended (c : String) :
    (categoryFieldOk c = true ↔ 3 ≤ c.length ∧ c.length ≤ 100) ∧
    (∀ a : ℚ, PurchaseRequest.fieldsOk ⟨a, c⟩ = (amountFieldOk a && categoryFieldOk c)) ∧
    (∀ a : ℚ, ∀ rid : Nat,
      TransferRequest.fieldsOk ⟨a, rid, c⟩ = (amountFieldOk a && categoryFieldOk c)) := by
  refine ⟨?_, fun a => rfl, fun a rid => rfl⟩
  simp [categoryFieldOk]

/-- natBits of a number with known power-of-two bounds. -/
theorem natBits_of_bounds (k n : Nat) (h1 : 2 ^ k ≤ n) (h2 : n < 2 ^ (k + 1)) :
    natBits n = k + 1 := by
  induction k generalizing n with
  | zero =>
    have hn : n = 1 := by norm_num at h1 h2; omega
    subst hn
    have h0 : natBits 0 = 0 := by rw [natBits]; norm_num
    rw [natBits]
    norm_num [h0]
  | succ k ih =>
    have hp : 0 < 2 ^ (k + 1) := pow_pos (by norm_num) _
    have hn0 : ¬ n = 0 := by omega
    have e1 : 2 ^ (k + 2) = 2 ^ (k + 1) * 2 := by ring
    have e2 : 2 ^ (k + 1) = 2 ^ k * 2 := by ring
    have b1 : 2 ^ k ≤ n / 2 := by omega
    have b2 : n / 2 < 2 ^ (k + 1) := by omega
    rw [natBits, if_neg hn0, ih (n / 2) b1 b2]

/-- natBits 1. -/
theorem natBits_one : natBits 1 = 1 := natBits_of_bounds 0 1 (by norm_num) (by norm_num)

/-- natBits of 2 ^ 55, the denominator of the double nearest 1/10. -/
theorem natBits_two_pow_55 : natBits 36028797018963968 = 56 :=
  natBits_of_bounds 55 _ (by norm_num) (by norm_num)

/-- The integer 1 is a binary64 fixed point. -/
theorem round64_one : round64 (1 : ℚ) = 1 := by
  have t0 : Int.toNat 0 = 0 := rfl
  have t52 : Int.toNat 52 = 52 := rfl
  simp only [round64, roundPos, ratLog2]
  norm_num [natBits_one, t0, t52]

/-- The integer 3 is a binary64 fixed point. -/
theorem round64_three : round64 (3 : ℚ) = 3 := by
  have hb : natBits 3 = 2 := natBits_of_bounds 1 _ (by norm_num) (by norm_num)
  have t1 : Int.toNat 1 = 1 := rfl
  have t51 : Int.toNat 51 = 51 := rfl
  simp only [round64, roundPos, ratLog2]
  norm_num [hb, natBits_one, t1, t51]

/-- The integer 5 is a binary64 fixed point. -/
theorem round64_five : round64 (5 : ℚ) = 5 := by
  have hb : natBits 5 = 3 := natBits_of_bounds 2 _ (by norm_num) (by norm_num)
  have t2 : Int.toNat 2 = 2 := rfl
  have t50 : Int.toNat 50 = 50 := rfl
  simp only [round64, roundPos, ratLog2]
  norm_num [hb, natBits_one, t2, t50]

/-- The double nearest 1/10 (significand 3602879701896397, scale 2 ^ 55)
is a binary64 fixed point. -/
theorem round64_tenth :
    round64 (3602879701896397 / 36028797018963968)
      = 3602879701896397 / 36028797018963968 := by
  have hb : natBits 3602879701896397 = 52 :=
    natBits_of_bounds 51 _ (by norm_num) (by norm_num)
  have t4 : Int.toNat 4 = 4 := rfl
  have t56 : Int.toNat 56 = 56 := rfl
  simp only [round64, roundPos, ratLog2]
  norm_num [hb, natBits_two_pow_55, t4, t56]

/-- Binary64 rounding of 1 + 0.1d (the exact sum is not representable
and rounds up to the double 1.1000000000000000888...). -/
theorem round64_one_plus_tenth :
    round64 (39631676720860365 / 36028797018963968)
      = 2476979795053773 / 2251799813685248 := by
  have hb : natBits 39631676720860365 = 56 :=
    natBits_of_bounds 55 _ (by norm_num) (by norm_num)
  have t0 : Int.toNat 0 = 0 := rfl
  have t52 : Int.toNat 52 = 52 := rfl
  simp only [round64, roundPos, ratLog2]
  norm_num [hb, natBits_two_pow_55, t0, t52]

/-- Binary64 rounding of 1 - 0.1d (rounds up to the double 0.9). -/
theorem round64_point_nine :
    round64 (32425917317067571 / 36028797018963968)
      = 8106479329266893 / 9007199254740992 := by
  have hb : natBits 32425917317067571 = 55 :=
    natBits_of_bounds 54 _ (by norm_num) (by norm_num)
  have t1 : Int.toNat 1 = 1 := rfl
  have t53 : Int.toNat 53 = 53 := rfl
  simp only [round64, roundPos, ratLog2]
  norm_num [hb, natBits_two_pow_55, t1, t53]

/-- Binary64 rounding of 10 ^ 16 - 0.1d: the subtrahend is absorbed and
the result is 10 ^ 16 again. -/
theorem round64_sub_tenth_1e16 :
    round64 (360287970189639676397120298103603 / 36028797018963968)
      = 10000000000000000 := by
  have hb : natBits 360287970189639676397120298103603 = 109 :=
    natBits_of_bounds 108 _ (by norm_num) (by norm_num)
  have t53 : Int.toNat 53 = 53 := rfl
  have t1 : Int.toNat 1 = 1 := rfl
  simp only [round64, roundPos, ratLog2]
  norm_num [hb, natBits_two_pow_55, t53, t1]

/-- Binary64 rounding of 2 ^ 53 + 0.1d: the addend is absorbed and the
result is 2 ^ 53 again. -/
theorem round64_add_tenth_2pow53 :
    round64 (324518553658426730386035722472653 / 36028797018963968)
      = 9007199254740992 := by
  have hb : natBits 324518553658426730386035722472653 = 109 :=
    natBits_of_bounds 108 _ (by norm_num) (by norm_num)
  have t53 : Int.toNat 53 = 53 := rfl
  have t1 : Int.toNat 1 = 1 := rfl
  simp only [round64, roundPos, ratLog2]
  norm_num [hb, natBits_two_pow_55, t53, t1]

/-- Unfolding lemma: rounded balance adjustment on a cons cell. -/
theorem adjustFl_cons (w : Wallet) (t : List Wallet) (wid : Nat) (delta : ℚ) :
    adjustWalletBalanceFl (w :: t) wid delta =
      (if w.id = wid then { w with balance := round64 (w.balance + delta) } else w)
        :: adjustWalletBalanceFl t wid delta := by
  by_cases h : w.id = wid <;> simp [adjustWalletBalanceFl, h]

/-- A rounded balance adjustment does not change the ids of the rows. -/
theorem adjustFl_map_id (ws : List Wallet) (wid : Nat) (delta : ℚ) :
    (adjustWalletBalanceFl ws wid delta).map Wallet.id = ws.map Wallet.id := by
  induction ws with
  | nil => rfl
  | cons w t ih =>
    rw [adjustFl_cons]
    by_cases h : w.id = wid <;> simp [h, ih]

/-- Reading back the adjusted wallet id sees the rounded adjusted
balance. -/
theorem walletBalanceIn_adjustFl_same (ws : List Wallet) (wid : Nat) (delta : ℚ)
    (hmem : wid ∈ ws.map Wallet.id) :
    walletBalanceIn (adjustWalletBalanceFl ws wid delta) wid
      = round64 (walletBalanceIn ws wid + delta) := by
  induction ws with
  | nil => simp at hmem
  | cons w t ih =>
    rw [adjustFl_cons]
    by_cases h : w.id = wid
    · rw [if_pos h, walletBalanceIn_cons, walletBalanceIn_cons]
      simp [h]
    · have hm : wid ∈ t.map Wallet.id := by
        rcases List.mem_cons.mp hmem with h1 | h1
        · exact absurd h1.symm h
        · exact h1
      rw [if_neg h, walletBalanceIn_cons, walletBalanceIn_cons]
      simp [h, ih hm]

/-- Reading back a different wallet id is unaffected by a rounded
adjustment. -/
theorem walletBalanceIn_adjustFl_other (ws : List Wallet) (wid wid' : Nat) (delta : ℚ)
    (h : wid ≠ wid') :
    walletBalanceIn (adjustWalletBalanceFl ws wid' delta) wid = walletBalanceIn ws wid := by
  induction ws with
  | nil => rfl
  | cons w t ih =>
    rw [adjustFl_cons]
    by_cases hw' : w.id = wid'
    · have hw : ¬w.id = wid := fun hh => h (hh ▸ hw')
      rw [if_pos hw', walletBalanceIn_cons, walletBalanceIn_cons, ih]
      simp [hw]
    · rw [if_neg hw', walletBalanceIn_cons, walletBalanceIn_cons, ih]

/-- When every row the adjustment touches has a rounding-free new
balance, the rounded adjustment agrees with the exact one. -/
theorem adjustFl_eq_adjust (ws : List Wallet) (wid : Nat) (delta : ℚ)
    (h : ∀ w ∈ ws, w.id = wid → round64 (w.balance + delta) = w.balance + delta) :
    adjustWalletBalanceFl ws wid delta = adjustWalletBalance ws wid delta := by
  induction ws with
  | nil => rfl
  | cons w t ih =>
    rw [adjustFl_cons, adjust_cons, ih (fun x hx hid => h x (List.mem_cons_of_mem _ hx) hid)]
    by_cases hid : w.id = wid
    · rw [if_pos hid, if_pos hid, h w (List.mem_cons_self _ _) hid]
    · rw [if_neg hid, if_neg hid]

/-- Rows of an exact adjustment come from rows of the original table. -/
theorem mem_adjust_cases (ws : List Wallet) (wid : Nat) (delta : ℚ) (x : Wallet)
    (hx : x ∈ adjustWalletBalance ws wid delta) :
    ∃ x0 ∈ ws, x = if x0.id = wid then { x0 with balance := x0.balance + delta } else x0 := by
  rcases List.mem_map.mp (by simpa [adjustWalletBalance] using hx) with ⟨x0, hx0, rfl⟩
  exact ⟨x0, hx0, by by_cases h : x0.id = wid <;> simp [h]⟩

/-- When a step's committed balances are rounding-free, the binary64
semantics of that step coincides with the exact semantics. -/
theorem stepOpFl_eq_stepOp (op : Op) (s : DBState) (hWF : WF s)
    (hex : stepAdjustsExact op s) : stepOpFl op s = stepOp op s := by
  cases op with
  | deposit u d =>
    cases hv : validate_user_status u with
    | error e => simp [stepOpFl, stepOp, deposit_funds_fl, deposit_funds, hv]
    | ok v =>
      cases hw : get_wallet_info u.id s with
      | error e => simp [stepOpFl, stepOp, deposit_funds_fl, deposit_funds, hv, hw]
      | ok wallet =>
        have hmem := (get_wallet_info_ok u.id s wallet hw).1
        simp only [stepAdjustsExact, hv, hw] at hex
        have hall : ∀ x ∈ s.wallets, x.id = wallet.id →
            round64 (x.balance + d.amount) = x.balance + d.amount := by
          intro x hx hid
          rw [wallet_eq_of_id_eq s.wallets x wallet hWF hx hmem hid]
          exact hex
        simp only [stepOpFl, stepOp, deposit_funds_fl, deposit_funds, hv, hw,
          adjustFl_eq_adjust s.wallets wallet.id d.amount hall, hex]
  | withdraw u d =>
    cases hv : validate_user_status u with
    | error e => simp [stepOpFl, stepOp, withdraw_funds_fl, withdraw_funds, hv]
    | ok v =>
      cases hw : get_wallet_info u.id s with
      | error e => simp [stepOpFl, stepOp, withdraw_funds_fl, withdraw_funds, hv, hw]
      | ok wallet =>
        by_cases hf : d.amount > wallet.balance
        · simp [stepOpFl, stepOp, withdraw_funds_fl, withdraw_funds, hv, hw, hf]
        · have hmem := (get_wallet_info_ok u.id s wallet hw).1
          simp only [stepAdjustsExact, hv, hw] at hex
          have hex' := hex (not_lt.mp hf)
          have hex'' : round64 (wallet.balance + -d.amount) = wallet.balance + -d.amount := by
            rw [← sub_eq_add_neg]
            exact hex'
          have hall : ∀ x ∈ s.wallets, x.id = wallet.id →
              round64 (x.balance + -d.amount) = x.balance + -d.amount := by
            intro x hx hid
            rw [wallet_eq_of_id_eq s.wallets x wallet hWF hx hmem hid]
            exact hex''
          simp only [stepOpFl, stepOp, withdraw_funds_fl, withdraw_funds, hv, hw, if_neg hf,
            adjustFl_eq_adjust s.wallets wallet.id (-d.amount) hall, hex']
  | purchase u d =>
    cases hv : validate_user_status u with
    | error e => simp [stepOpFl, stepOp, buy_goods_fl, buy_goods, hv]
    | ok v =>
      cases hw : get_wallet_info u.id s with
      | error e => simp [stepOpFl, stepOp, buy_goods_fl, buy_goods, hv, hw]
      | ok wallet =>
        by_cases hf : d.amount > wallet.balance
        · simp [stepOpFl, stepOp, buy_goods_fl, buy_goods, hv, hw, hf]
        · have hmem := (get_wallet_info_ok u.id s wallet hw).1
          simp only [stepAdjustsExact, hv, hw] at hex
          have hex' := hex (not_lt.mp hf)
          have hex'' : round64 (wallet.balance + -d.amount) = wallet.balance + -d.amount := by
            rw [← sub_eq_add_neg]
            exact hex'
          have hall : ∀ x ∈ s.wallets, x.id = wallet.id →
              round64 (x.balance + -d.amount) = x.balance + -d.amount := by
            intro x hx hid
            rw [wallet_eq_of_id_eq s.wallets x wallet hWF hx hmem hid]
            exact hex''
          simp only [stepOpFl, stepOp, buy_goods_fl, buy_goods, hv, hw, if_neg hf,
            adjustFl_eq_adjust s.wallets wallet.id (-d.amount) hall, hex']
  | transfer u d =>
    cases hv : validate_user_status u with
    | error e => simp [stepOpFl, stepOp, transfer_funds_fl, transfer_funds, hv]
    | ok v =>
      cases hw : get_wallet_info u.id s with
      | error e => simp [stepOpFl, stepOp, transfer_funds_fl, transfer_funds, hv, hw]
      | ok wallet =>
        by_cases hf : d.amount > wallet.balance
        · simp [stepOpFl, stepOp, transfer_funds_fl, transfer_funds, hv, hw, hf]
        · cases hr : s.users.find? (fun x => x.id == d.recipient_id) with
          | none => simp [stepOpFl, stepOp, transfer_funds_fl, transfer_funds, hv, hw, hf, hr]
          | some recipient_info =>
            by_cases ha : recipient_info.active
            · by_cases hve : recipient_info.verified
              · cases hrw : get_wallet_info d.recipient_id s with
                | error e =>
                  simp [stepOpFl, stepOp, transfer_funds_fl, transfer_funds,
                    hv, hw, hf, hr, ha, hve, hrw]
                | ok recipient_wallet =>
                  have hmemw := (get_wallet_info_ok u.id s wallet hw).1
                  have hmemrw := (get_wallet_info_ok d.recipient_id s recipient_wallet hrw).1
                  simp only [stepAdjustsExact, hv, hw, hr, hrw] at hex
                  obtain ⟨hx1, hx2⟩ := hex (not_lt.mp hf) ha hve
                  have hx1' : round64 (wallet.balance + -d.amount)
                      = wallet.balance + -d.amount := by
                    rw [← sub_eq_add_neg]
                    exact hx1
                  have hall1 : ∀ x ∈ s.wallets, x.id = wallet.id →
                      round64 (x.balance + -d.amount) = x.balance + -d.amount := by
                    intro x hx hid
                    rw [wallet_eq_of_id_eq s.wallets x wallet hWF hx hmemw hid]
                    exact hx1'
                  have hD := adjustFl_eq_adjust s.wallets wallet.id (-d.amount) hall1
                  have hall2 : ∀ x ∈ adjustWalletBalance s.wallets wallet.id (-d.amount),
                      x.id = recipient_wallet.id →
                      round64 (x.balance + d.amount) = x.balance + d.amount := by
                    intro x hx hid
                    obtain ⟨x0, hx0, hxeq⟩ :=
                      mem_adjust_cases s.wallets wallet.id (-d.amount) x hx
                    have hid0 : x0.id = recipient_wallet.id := by
                      by_cases h0 : x0.id = wallet.id <;> simp [hxeq, h0] at hid ⊢ <;>
                        exact hid
                    have hx0rw : x0 = recipient_wallet :=
                      wallet_eq_of_id_eq s.wallets x0 recipient_wallet hWF hx0 hmemrw hid0
                    by_cases hcase : recipient_wallet.id = wallet.id
                    · have hrww : recipient_wallet = wallet :=
                        wallet_eq_of_id_eq s.wallets recipient_wallet wallet hWF
                          hmemrw hmemw hcase
                      rw [if_pos hcase] at hx2
                      have hxval : x = { wallet with balance := wallet.balance + -d.amount } := by
                        rw [hxeq, hx0rw, hrww, if_pos rfl]
                      rw [hxval]
                      show round64 (wallet.balance + -d.amount + d.amount)
                          = wallet.balance + -d.amount + d.amount
                      rw [← sub_eq_add_neg]
                      exact hx2
                    · have hxval : x = recipient_wallet := by
                        rw [hxeq, hx0rw, if_neg hcase]
                      rw [if_neg hcase] at hx2
                      rw [hxval]
                      exact hx2
                  have hC := adjustFl_eq_adjust
                    (adjustWalletBalance s.wallets wallet.id (-d.amount))
                    recipient_wallet.id d.amount hall2
                  simp only [stepOpFl, stepOp, transfer_funds_fl, transfer_funds,
                    hv, hw, if_neg hf, hr, ha, hve, hrw, Bool.not_true,
                    Bool.false_eq_true, if_false, hD, hC]
              · simp [stepOpFl, stepOp, transfer_funds_fl, transfer_funds,
                  hv, hw, hf, hr, ha, hve]
            · simp [stepOpFl, stepOp, transfer_funds_fl, transfer_funds,
                hv, hw, hf, hr, ha]

/-- A rounding-free run under the binary64 semantics coincides with the
exact run, state and totals alike. -/
theorem run_exact_eq (ops : List Op) (s : DBState) (hWF : WF s)
    (hex : ExactRun ops s) :
    applyOpsFl ops s = applyOps ops s ∧
    seqDepositedFl ops s = seqDeposited ops s ∧
    seqWithdrawnFl ops s = seqWithdrawn ops s ∧
    seqSpentFl ops s = seqSpent ops s := by
  induction ops generalizing s with
  | nil => exact ⟨rfl, rfl, rfl, rfl⟩
  | cons op ops ih =>
    obtain ⟨hex1, hex2⟩ := hex
    have hstep := stepOpFl_eq_stepOp op s hWF hex1
    have ih' := ih (stepOp op s).2 (stepOp_WF op s hWF) (hstep ▸ hex2)
    simp only [applyOpsFl, applyOps, seqDepositedFl, seqDeposited, seqWithdrawnFl,
      seqWithdrawn, seqSpentFl, seqSpent, hstep]
    exact ⟨ih'.1, by rw [ih'.2.1], by rw [ih'.2.2.1], by rw [ih'.2.2.2]⟩

/-- Counterexample for C5: withdrawing the double nearest 0.1 from a
balance of 10 ^ 16 succeeds and appends a Withdraw transaction, but the
binary64 subtraction absorbs the amount: the committed balance is still
10 ^ 16, which differs from the exact difference, so the withdrawal does
not decrease the balance by the amount. -/
theorem withdraw_rounding_counterexample :
    (withdraw_funds_fl ⟨1, true, true⟩ ⟨3602879701896397 / 36028797018963968⟩
        (DBState.mk [⟨1, true, true⟩] [⟨10, 1, 10 ^ 16⟩] [])).1
      = .ok { amount_withdrawn := 3602879701896397 / 36028797018963968,
              wallet_balance := 10 ^ 16 } ∧
    (withdraw_funds_fl ⟨1, true, true⟩ ⟨3602879701896397 / 36028797018963968⟩
        (DBState.mk [⟨1, true, true⟩] [⟨10, 1, 10 ^ 16⟩] [])).2.wallets
      = [⟨10, 1, 10 ^ 16⟩] ∧
    (withdraw_funds_fl ⟨1, true, true⟩ ⟨3602879701896397 / 36028797018963968⟩
        (DBState.mk [⟨1, true, true⟩] [⟨10, 1, 10 ^ 16⟩] [])).2.transactions
      = [{ wallet_id := 10, type := "Withdraw",
           amount := 3602879701896397 / 36028797018963968, category := none }] ∧
    (10 ^ 16 : ℚ) ≠ 10 ^ 16 - 3602879701896397 / 36028797018963968 := by
  refine ⟨?_, ?_, ?_, by norm_num⟩ <;>
    simp only [withdraw_funds_fl, validate_user_status, status_detail, get_wallet_info,
      adjustWalletBalanceFl, List.find?, List.map] <;>
    norm_num [round64_sub_tenth_1e16]

/-- C5 (amended): Withdraw correctness under the source's binary64
arithmetic: for an active and verified wallet owner and any amount
greater than 0, withdrawal fails with insufficientFunds exactly when the
amount exceeds the wallet balance (the comparison is exact); otherwise it
sets the balance to the binary64-rounded difference, appends exactly one
Withdraw transaction with the requested amount, and returns that rounded
balance — the balance decreases by exactly the amount precisely when the
subtraction incurs no rounding; on the insufficient-funds failure the
store is unchanged. -/
theorem withdraw_funds_correct_float (u : User) (data : WithdrawRequest) (s : DBState)
    (w : Wallet)
    (hWF : WF s) (hact : u.active = true) (hver : u.verified = true)
    (hw : get_wallet_info u.id s = .ok w) (hpos : 0 < data.amount) :
    ((withdraw_funds_fl u data s).1 = .error (.insufficientFunds w.balance)
        ↔ w.balance < data.amount) ∧
    (data.amount ≤ w.balance →
      (withdraw_funds_fl u data s).1
          = .ok { amount_withdrawn := data.amount,
                  wallet_balance := round64 (w.balance - data.amount) } ∧
      walletBalanceIn (withdraw_funds_fl u data s).2.wallets w.id
          = round64 (w.balance - data.amount) ∧
      (withdraw_funds_fl u data s).2.transactions
        = s.transactions ++ [{ wallet_id := w.id, type := "Withdraw",
                               amount := data.amount, category := none }] ∧
      (round64 (w.balance - data.amount) = w.balance - data.amount →
        walletBalanceIn (withdraw_funds_fl u data s).2.wallets w.id
          = w.balance - data.amount)) ∧
    (w.balance < data.amount → (withdraw_funds_fl u data s).2 = s) := by
  have hv := validate_user_status_ok u hact hver
  have hmemw : w ∈ s.wallets := (get_wallet_info_ok u.id s w hw).1
  have hmid : w.id ∈ s.wallets.map Wallet.id := List.mem_map_of_mem Wallet.id hmemw
  have hbal : walletBalanceIn (adjustWalletBalanceFl s.wallets w.id (-data.amount)) w.id
      = round64 (w.balance - data.amount) := by
    rw [walletBalanceIn_adjustFl_same s.wallets w.id (-data.amount) hmid,
      walletBalanceIn_of_mem s.wallets w hWF hmemw, ← sub_eq_add_neg]
  by_cases hf : data.amount > w.balance
  · refine ⟨⟨fun _ => hf, fun _ => ?_⟩, fun hle => absurd hf (not_lt.mpr hle), fun _ => ?_⟩
    · simp [withdraw_funds_fl, hv, hw, hf]
    · simp [withdraw_funds_fl, hv, hw, hf]
  · refine ⟨⟨fun herr => ?_, fun hlt => absurd hlt hf⟩,
      fun _ => ⟨?_, ?_, ?_, fun hrd => ?_⟩, fun hlt => absurd hlt hf⟩
    · simp [withdraw_funds_fl, hv, hw, hf] at herr
    · simp [withdraw_funds_fl, hv, hw, hf]
    · simp only [withdraw_funds_fl, hv, hw, if_neg hf]
      exact hbal
    · simp [withdraw_funds_fl, hv, hw, hf]
    · simp only [withdraw_funds_fl, hv, hw, if_neg hf]
      rw [hbal, hrd]

/-- Witness for C5: withdrawing the full balance of 30 succeeds, commits
the rounded difference round64 (30 - 30), and records one Withdraw
transaction. -/
theorem withdraw_funds_correct_float_witness :
    WF (DBState.mk [⟨1, true, true⟩] [⟨10, 1, 30⟩] []) ∧
    get_wallet_info 1 (DBState.mk [⟨1, true, true⟩] [⟨10, 1, 30⟩] [])
      = .ok ⟨10, 1, 30⟩ ∧
    (0:ℚ) < 30 ∧ (30:ℚ) ≤ 30 ∧
    ((withdraw_funds_fl ⟨1, true, true⟩ ⟨30⟩
        (DBState.mk [⟨1, true, true⟩] [⟨10, 1, 30⟩] [])).1
      = .ok { amount_withdrawn := 30, wallet_balance := round64 ((30:ℚ) - 30) } ∧
     walletBalanceIn (withdraw_funds_fl ⟨1, true, true⟩ ⟨30⟩
        (DBState.mk [⟨1, true, true⟩] [⟨10, 1, 30⟩] [])).2.wallets 10
      = round64 ((30:ℚ) - 30) ∧
     (withdraw_funds_fl ⟨1, true, true⟩ ⟨30⟩
        (DBState.mk [⟨1, true, true⟩] [⟨10, 1, 30⟩] [])).2.transactions
      = [] ++ [{ wallet_id := 10, type := "Withdraw", amount := 30, category := none }]) := by
  refine ⟨by decide, by rfl, by decide, by decide, ?_⟩
  have h := (withdraw_funds_correct_float ⟨1, true, true⟩ ⟨30⟩
      (DBState.mk [⟨1, true, true⟩] [⟨10, 1, 30⟩] []) ⟨10, 1, 30⟩
      (by decide) rfl rfl (by rfl) (by decide)).2.1 (by decide)
  exact ⟨h.1, h.2.1, h.2.2.1⟩

/-- Counterexample for C3: an active and verified sender with balance 1
transfers the double nearest 0.1 to an active and verified recipient
whose balance is 2 ^ 53; the transfer succeeds and debits the sender,
but the binary64 addition absorbs the credit: the recipient's balance is
still 2 ^ 53, not 2 ^ 53 plus the amount. -/
theorem transfer_credit_absorbed_counterexample :
    (transfer_funds_fl ⟨1, true, true⟩
        ⟨3602879701896397 / 36028797018963968, 2, "Family"⟩
        (DBState.mk [⟨1, true, true⟩, ⟨2, true, true⟩]
          [⟨10, 1, 1⟩, ⟨20, 2, 9007199254740992⟩] [])).1
      = .ok { amount_transferred := 3602879701896397 / 36028797018963968,
              wallet_balance := 8106479329266893 / 9007199254740992 } ∧
    walletBalanceIn (transfer_funds_fl ⟨1, true, true⟩
        ⟨3602879701896397 / 36028797018963968, 2, "Family"⟩
        (DBState.mk [⟨1, true, true⟩, ⟨2, true, true⟩]
          [⟨10, 1, 1⟩, ⟨20, 2, 9007199254740992⟩] [])).2.wallets 20
      = 9007199254740992 ∧
    (9007199254740992 : ℚ)
      ≠ 9007199254740992 + 3602879701896397 / 36028797018963968 := by
  have hv : validate_user_status ⟨1, true, true⟩ = .ok () := rfl
  have hws : get_wallet_info 1
      (DBState.mk [⟨1, true, true⟩, ⟨2, true, true⟩]
        [⟨10, 1, 1⟩, ⟨20, 2, 9007199254740992⟩] []) = .ok ⟨10, 1, 1⟩ := rfl
  have hwr : get_wallet_info 2
      (DBState.mk [⟨1, true, true⟩, ⟨2, true, true⟩]
        [⟨10, 1, 1⟩, ⟨20, 2, 9007199254740992⟩] [])
      = .ok ⟨20, 2, 9007199254740992⟩ := rfl
  have hfr : (DBState.mk [⟨1, true, true⟩, ⟨2, true, true⟩]
        [⟨10, 1, 1⟩, ⟨20, 2, 9007199254740992⟩] []).users.find?
      (fun x => x.id == (2:Nat)) = some ⟨2, true, true⟩ := rfl
  have hfunds : ¬ ((3602879701896397 : ℚ) / 36028797018963968 > 1) := by norm_num
  refine ⟨?_, ?_, by norm_num⟩ <;>
    simp only [transfer_funds_fl, hv, hws, hwr, hfr, if_neg hfunds,
      adjustWalletBalanceFl, walletBalanceIn, List.find?, List.map] <;>
    norm_num [round64_point_nine, round64_add_tenth_2pow53] <;>
    rfl

/-- C3 (amended): Transfer postcondition under the source's binary64
arithmetic: for an active and verified sender with sufficient funds and
an existing active and verified recipient with a distinct wallet,
transfer_funds_fl commits the sender balance as the rounded difference
and the recipient balance as the rounded sum, appends exactly a Transfer
record on the sender wallet (with the given category) and a Receive
record on the recipient wallet (without category), both with the same
amount, and returns the sender's committed balance; the debit and credit
equal the exact difference and sum precisely when the respective
roundings are exact. -/
theorem transfer_funds_postcondition_float (u : User) (data : TransferRequest) (s : DBState)
    (w rw : Wallet) (r : User)
    (hWF : WF s) (hact : u.active = true) (hver : u.verified = true)
    (hw : get_wallet_info u.id s = .ok w)
    (hpos : 0 < data.amount) (hfunds : data.amount ≤ w.balance)
    (hr : s.users.find? (fun x => x.id == data.recipient_id) = some r)
    (hract : r.active = true) (hrver : r.verified = true)
    (hrw : get_wallet_info data.recipient_id s = .ok rw)
    (hne : w.id ≠ rw.id) :
    (transfer_funds_fl u data s).1
        = .ok { amount_transferred := data.amount,
                wallet_balance := round64 (w.balance - data.amount) } ∧
    walletBalanceIn (transfer_funds_fl u data s).2.wallets w.id
        = round64 (w.balance - data.amount) ∧
    walletBalanceIn (transfer_funds_fl u data s).2.wallets rw.id
        = round64 (rw.balance + data.amount) ∧
    (transfer_funds_fl u data s).2.transactions
      = s.transactions ++
          [{ wallet_id := w.id, type := "Transfer", amount := data.amount,
             category := some data.spending_category },
           { wallet_id := rw.id, type := "Receive", amount := data.amount,
             category := none }] ∧
    (round64 (w.balance - data.amount) = w.balance - data.amount →
      walletBalanceIn (transfer_funds_fl u data s).2.wallets w.id
        = w.balance - data.amount) ∧
    (round64 (rw.balance + data.amount) = rw.balance + data.amount →
      walletBalanceIn (transfer_funds_fl u data s).2.wallets rw.id
        = rw.balance + data.amount) := by
  have hv := validate_user_status_ok u hact hver
  have hf : ¬ data.amount > w.balance := not_lt.mpr hfunds
  have hmemw : w ∈ s.wallets := (get_wallet_info_ok u.id s w hw).1
  have hmidw : w.id ∈ s.wallets.map Wallet.id := List.mem_map_of_mem Wallet.id hmemw
  have hmemrw : rw ∈ s.wallets := (get_wallet_info_ok data.recipient_id s rw hrw).1
  have hmidrw : rw.id ∈ s.wallets.map Wallet.id := List.mem_map_of_mem Wallet.id hmemrw
  have hsender : walletBalanceIn
      (adjustWalletBalanceFl (adjustWalletBalanceFl s.wallets w.id (-data.amount))
        rw.id data.amount) w.id = round64 (w.balance - data.amount) := by
    rw [walletBalanceIn_adjustFl_other _ _ _ _ hne,
      walletBalanceIn_adjustFl_same s.wallets w.id (-data.amount) hmidw,
      walletBalanceIn_of_mem s.wallets w hWF hmemw, ← sub_eq_add_neg]
  have hrecip : walletBalanceIn
      (adjustWalletBalanceFl (adjustWalletBalanceFl s.wallets w.id (-data.amount))
        rw.id data.amount) rw.id = round64 (rw.balance + data.amount) := by
    rw [walletBalanceIn_adjustFl_same _ rw.id data.amount (by
        rw [adjustFl_map_id]; exact hmidrw),
      walletBalanceIn_adjustFl_other _ _ _ _ (Ne.symm hne),
      walletBalanceIn_of_mem s.wallets rw hWF hmemrw]
  refine ⟨?_, ?_, ?_, ?_, fun hrd => ?_, fun hrd => ?_⟩
  · simp only [transfer_funds_fl, hv, hw, if_neg hf, hr, hract, hrver, hrw, Bool.not_true,
      Bool.false_eq_true, if_false, hsender]
  · simp only [transfer_funds_fl, hv, hw, if_neg hf, hr, hract, hrver, hrw, Bool.not_true,
      Bool.false_eq_true, if_false, hsender]
  · simp only [transfer_funds_fl, hv, hw, if_neg hf, hr, hract, hrver, hrw, Bool.not_true,
      Bool.false_eq_true, if_false, hrecip]
  · simp only [transfer_funds_fl, hv, hw, if_neg hf, hr, hract, hrver, hrw, Bool.not_true,
      Bool.false_eq_true, if_false]
  · simp only [transfer_funds_fl, hv, hw, if_neg hf, hr, hract, hrver, hrw, Bool.not_true,
      Bool.false_eq_true, if_false, hsender]
    exact hrd
  · simp only [transfer_funds_fl, hv, hw, if_neg hf, hr, hract, hrver, hrw, Bool.not_true,
      Bool.false_eq_true, if_false, hrecip]
    exact hrd

/-- Witness for C3: sender with balance 50 transfers 20 to a recipient
with balance 7; the committed balances are the rounded difference and
sum, and the Transfer and Receive records are appended. -/
theorem transfer_funds_postcondition_float_witness :
    WF (DBState.mk [⟨1, true, true⟩, ⟨2, true, true⟩]
        [⟨10, 1, 50⟩, ⟨20, 2, 7⟩] []) ∧
    (0:ℚ) < 20 ∧ (20:ℚ) ≤ 50 ∧ (10:Nat) ≠ 20 ∧
    ((transfer_funds_fl ⟨1, true, true⟩ ⟨20, 2, "Family"⟩
        (DBState.mk [⟨1, true, true⟩, ⟨2, true, true⟩]
          [⟨10, 1, 50⟩, ⟨20, 2, 7⟩] [])).1
      = .ok { amount_transferred := 20, wallet_balance := round64 ((50:ℚ) - 20) } ∧
     walletBalanceIn (transfer_funds_fl ⟨1, true, true⟩ ⟨20, 2, "Family"⟩
        (DBState.mk [⟨1, true, true⟩, ⟨2, true, true⟩]
          [⟨10, 1, 50⟩, ⟨20, 2, 7⟩] [])).2.wallets 10 = round64 ((50:ℚ) - 20) ∧
     walletBalanceIn (transfer_funds_fl ⟨1, true, true⟩ ⟨20, 2, "Family"⟩
        (DBState.mk [⟨1, true, true⟩, ⟨2, true, true⟩]
          [⟨10, 1, 50⟩, ⟨20, 2, 7⟩] [])).2.wallets 20 = round64 ((7:ℚ) + 20) ∧
     (transfer_funds_fl ⟨1, true, true⟩ ⟨20, 2, "Family"⟩
        (DBState.mk [⟨1, true, true⟩, ⟨2, true, true⟩]
          [⟨10, 1, 50⟩, ⟨20, 2, 7⟩] [])).2.transactions
      = [] ++ [{ wallet_id := 10, type := "Transfer", amount := 20,
                 category := some "Family" },
               { wallet_id := 20, type := "Receive", amount := 20, category := none }]) := by
  refine ⟨by decide, by decide, by decide, by decide, ?_⟩
  have h := transfer_funds_postcondition_float ⟨1, true, true⟩ ⟨20, 2, "Family"⟩
    (DBState.mk [⟨1, true, true⟩, ⟨2, true, true⟩]
      [⟨10, 1, 50⟩, ⟨20, 2, 7⟩] [])
    ⟨10, 1, 50⟩ ⟨20, 2, 7⟩ ⟨2, true, true⟩
    (by decide) rfl rfl (by rfl) (by decide) (by decide) (by rfl) rfl rfl (by rfl)
    (by decide)
  exact ⟨h.1, h.2.1, h.2.2.1, h.2.2.2.1⟩

/-- Counterexample for C1: depositing 1.0 and then the double nearest 0.1
into a wallet that starts at 0 commits the rounded sum of the second
deposit, which exceeds the exact sum of the two amounts: the final
balance (plus nothing withdrawn or spent) differs from the total
deposited, so the binary64 ledger does not conserve money exactly. -/
theorem conservation_float_counterexample :
    sumBalances (applyOpsFl
        [Op.deposit ⟨1, true, true⟩ ⟨1⟩,
         Op.deposit ⟨1, true, true⟩ ⟨3602879701896397 / 36028797018963968⟩]
        (DBState.mk [⟨1, true, true⟩] [⟨10, 1, 0⟩] [])).wallets
      + seqWithdrawnFl
        [Op.deposit ⟨1, true, true⟩ ⟨1⟩,
         Op.deposit ⟨1, true, true⟩ ⟨3602879701896397 / 36028797018963968⟩]
        (DBState.mk [⟨1, true, true⟩] [⟨10, 1, 0⟩] [])
      + seqSpentFl
        [Op.deposit ⟨1, true, true⟩ ⟨1⟩,
         Op.deposit ⟨1, true, true⟩ ⟨3602879701896397 / 36028797018963968⟩]
        (DBState.mk [⟨1, true, true⟩] [⟨10, 1, 0⟩] [])
      ≠ seqDepositedFl
        [Op.deposit ⟨1, true, true⟩ ⟨1⟩,
         Op.deposit ⟨1, true, true⟩ ⟨3602879701896397 / 36028797018963968⟩]
        (DBState.mk [⟨1, true, true⟩] [⟨10, 1, 0⟩] []) := by
  have hstep1 : stepOpFl (Op.deposit ⟨1, true, true⟩ ⟨1⟩)
      (DBState.mk [⟨1, true, true⟩] [⟨10, 1, 0⟩] [])
      = (.ok (), DBState.mk [⟨1, true, true⟩] [⟨10, 1, 1⟩]
          [{ wallet_id := 10, type := "Deposit", amount := 1, category := none }]) := by
    have hv : validate_user_status ⟨1, true, true⟩ = .ok () := rfl
    have hws : get_wallet_info 1 (DBState.mk [⟨1, true, true⟩] [⟨10, 1, 0⟩] [])
        = .ok ⟨10, 1, 0⟩ := rfl
    simp only [stepOpFl, deposit_funds_fl, hv, hws, adjustWalletBalanceFl,
      List.map, Except.map]
    norm_num [round64_one]
  have hstep2 : stepOpFl
      (Op.deposit ⟨1, true, true⟩ ⟨3602879701896397 / 36028797018963968⟩)
      (DBState.mk [⟨1, true, true⟩] [⟨10, 1, 1⟩]
        [{ wallet_id := 10, type := "Deposit", amount := 1, category := none }])
      = (.ok (), DBState.mk [⟨1, true, true⟩]
          [⟨10, 1, 2476979795053773 / 2251799813685248⟩]
          [{ wallet_id := 10, type := "Deposit", amount := 1, category := none },
           { wallet_id := 10, type := "Deposit",
             amount := 3602879701896397 / 36028797018963968, category := none }]) := by
    have hv : validate_user_status ⟨1, true, true⟩ = .ok () := rfl
    have hws : get_wallet_info 1 (DBState.mk [⟨1, true, true⟩] [⟨10, 1, 1⟩]
        [{ wallet_id := 10, type := "Deposit", amount := 1, category := none }])
        = .ok ⟨10, 1, 1⟩ := rfl
    simp only [stepOpFl, deposit_funds_fl, hv, hws, adjustWalletBalanceFl,
      List.map, Except.map]
    norm_num [round64_one_plus_tenth]
  simp only [applyOpsFl, seqWithdrawnFl, seqSpentFl, seqDepositedFl, hstep1, hstep2]
  norm_num [depositDelta, withdrawDelta, spentDelta, sumBalances]

/-- C1 (amended): Conservation of money under the source's binary64
arithmetic: for every finite sequence of operations over a closed set of
wallets (each starting at balance 0) in which no committed balance
update incurs rounding, the sum of all wallet balances plus the total
amount withdrawn and spent equals the total amount deposited; when a
balance update does round, the committed balances can drift from the
exact totals by rounding residues. -/
theorem conservation_of_money_float (ops : List Op) (s0 : DBState) (hWF : WF s0)
    (hzero : ∀ w ∈ s0.wallets, w.balance = 0)
    (hex : ExactRun ops s0) :
    sumBalances (applyOpsFl ops s0).wallets + seqWithdrawnFl ops s0 + seqSpentFl ops s0
      = seqDepositedFl ops s0 := by
  obtain ⟨h1, h2, h3, h4⟩ := run_exact_eq ops s0 hWF hex
  rw [h1, h2, h3, h4]
  exact conservation_of_money ops s0 hWF hzero

/-- Witness for C1: a deposit of 5 followed by a withdrawal of 2 on a
zero-balance wallet is a rounding-free run, and the conservation
identity holds for it. -/
theorem conservation_of_money_float_witness :
    WF (DBState.mk [⟨1, true, true⟩] [⟨10, 1, 0⟩] []) ∧
    (∀ w ∈ (DBState.mk [⟨1, true, true⟩] [⟨10, 1, 0⟩] []).wallets, w.balance = 0) ∧
    ExactRun [Op.deposit ⟨1, true, true⟩ ⟨5⟩, Op.withdraw ⟨1, true, true⟩ ⟨2⟩]
      (DBState.mk [⟨1, true, true⟩] [⟨10, 1, 0⟩] []) ∧
    sumBalances (applyOpsFl
        [Op.deposit ⟨1, true, true⟩ ⟨5⟩, Op.withdraw ⟨1, true, true⟩ ⟨2⟩]
        (DBState.mk [⟨1, true, true⟩] [⟨10, 1, 0⟩] [])).wallets
      + seqWithdrawnFl
        [Op.deposit ⟨1, true, true⟩ ⟨5⟩, Op.withdraw ⟨1, true, true⟩ ⟨2⟩]
        (DBState.mk [⟨1, true, true⟩] [⟨10, 1, 0⟩] [])
      + seqSpentFl
        [Op.deposit ⟨1, true, true⟩ ⟨5⟩, Op.withdraw ⟨1, true, true⟩ ⟨2⟩]
        (DBState.mk [⟨1, true, true⟩] [⟨10, 1, 0⟩] [])
      = seqDepositedFl
        [Op.deposit ⟨1, true, true⟩ ⟨5⟩, Op.withdraw ⟨1, true, true⟩ ⟨2⟩]
        (DBState.mk [⟨1, true, true⟩] [⟨10, 1, 0⟩] []) := by
  have hv : validate_user_status ⟨1, true, true⟩ = .ok () := rfl
  have hws0 : get_wallet_info 1 (DBState.mk [⟨1, true, true⟩] [⟨10, 1, 0⟩] [])
      = .ok ⟨10, 1, 0⟩ := rfl
  have hstep1 : stepOpFl (Op.deposit ⟨1, true, true⟩ ⟨5⟩)
      (DBState.mk [⟨1, true, true⟩] [⟨10, 1, 0⟩] [])
      = (.ok (), DBState.mk [⟨1, true, true⟩] [⟨10, 1, 5⟩]
          [{ wallet_id := 10, type := "Deposit", amount := 5, category := none }]) := by
    simp only [stepOpFl, deposit_funds_fl, hv, hws0, adjustWalletBalanceFl,
      List.map, Except.map]
    norm_num [round64_five]
  have hws1 : get_wallet_info 1 (DBState.mk [⟨1, true, true⟩] [⟨10, 1, 5⟩]
      [{ wallet_id := 10, type := "Deposit", amount := 5, category := none }])
      = .ok ⟨10, 1, 5⟩ := rfl
  have hex : ExactRun [Op.deposit ⟨1, true, true⟩ ⟨5⟩, Op.withdraw ⟨1, true, true⟩ ⟨2⟩]
      (DBState.mk [⟨1, true, true⟩] [⟨10, 1, 0⟩] []) := by
    refine ⟨?_, ?_, trivial⟩
    · simp only [stepAdjustsExact, hv, hws0]
      norm_num [round64_five]
    · rw [hstep1]
      simp only [stepAdjustsExact, hv, hws1]
      intro h2
      norm_num [round64_three]
  exact ⟨by decide, by decide, hex,
    conservation_of_money_float _ _ (by decide) (by decide) hex⟩
